import Mathlib

/-!
# Verification of the Atlassian-tools text-mirror serializer and update coordinator

Shallow embedding of the round-trip YAML serializer
(`src/utils/confluenceYamlConverters.ts`, `src/utils/formatters.ts`), the
HTTP response handling of the two API helpers
(`src/helpers/confluenceHelper.ts`, `src/helpers/jiraHelper.ts`) and the
save/update orchestration (`src/commands/confluenceCommands.ts`).

JavaScript dynamic values are modelled by `Scalar` (primitive values) and
`JsVal` (a primitive or a flat object of primitives); a loaded YAML document
is a `LoadResult`.  The modelled `js-yaml` subset covers exactly the shape
the serializers emit: a flat mapping of plain or single-quoted scalars, with
one optional level of two-space-indented nesting (the `fields:` block of
issue documents); multi-line block scalars, flow collections and deeper
nesting are outside the model.  `yaml.dump` is modelled by `dumpStr` /
`intToStr`, `yaml.load` by `loadYamlLines`, `JSON.parse` is kept abstract.
A thrown JavaScript exception is modelled as `Except.error`.
-/

namespace AtlassianTools

/-- A primitive JavaScript value as produced by the YAML loader subset. -/
inductive Scalar where
  | str (s : String)
  | num (n : Int)
  | bool (b : Bool)
  | null
deriving Repr, DecidableEq

/-- A loaded YAML value: a primitive, or a flat object of primitives
(one level of nesting, as in the `fields:` block of an issue document). -/
inductive JsVal where
  | sc (v : Scalar)
  | obj (m : List (String × Scalar))
deriving Repr, DecidableEq

/-- Result of `yaml.load` on a document: JavaScript `undefined` (empty
document), a scalar document, a mapping document, or a thrown
`YAMLException`. -/
inductive LoadResult where
  | undef
  | scalarDoc (v : Scalar)
  | mapDoc (m : List (String × JsVal))
  | err (e : String)
deriving Repr, DecidableEq

instance exceptDecEq {ε α : Type} [DecidableEq ε] [DecidableEq α] :
    DecidableEq (Except ε α)
  | .ok x, .ok y =>
    if h : x = y then .isTrue (by rw [h])
    else .isFalse (by intro hc; cases hc; exact h rfl)
  | .ok _, .error _ => .isFalse (by intro h; cases h)
  | .error _, .ok _ => .isFalse (by intro h; cases h)
  | .error e, .error f =>
    if h : e = f then .isTrue (by rw [h])
    else .isFalse (by intro hc; cases hc; exact h rfl)

/-- JavaScript truthiness of a primitive value. -/
def Scalar.truthy : Scalar → Bool
  | .str s => s ≠ ""
  | .num n => n ≠ 0
  | .bool b => b
  | .null => false

/-- JavaScript truthiness of a loaded value (objects are always truthy). -/
def JsVal.truthy : JsVal → Bool
  | .sc v => v.truthy
  | .obj _ => true

/-- `a || b` on an optional JavaScript value (`none` models `undefined`). -/
def jsOrV (o : Option JsVal) (d : JsVal) : JsVal :=
  match o with
  | some v => if v.truthy then v else d
  | none => d

/-- `a || b` on an optional primitive. -/
def jsOrS (o : Option Scalar) (d : Scalar) : Scalar :=
  match o with
  | some v => if v.truthy then v else d
  | none => d

/-- The decimal digit character for a remainder (0–9). -/
def digitChar (k : Nat) : Char :=
  match k with
  | 0 => '0' | 1 => '1' | 2 => '2' | 3 => '3' | 4 => '4'
  | 5 => '5' | 6 => '6' | 7 => '7' | 8 => '8' | _ => '9'

/-- Decimal digits of a natural number (fuel-driven so the recursion is
structural); models the rendering used by `yaml.dump` for numbers. -/
def natToCharsCore : Nat → Nat → List Char → List Char
  | 0, _, acc => acc
  | fuel + 1, n, acc =>
    let d := digitChar (n % 10)
    if n < 10 then d :: acc
    else natToCharsCore fuel (n / 10) (d :: acc)

def natToChars (n : Nat) : List Char := natToCharsCore (n + 1) n []

def intToChars : Int → List Char
  | .ofNat n => natToChars n
  | .negSucc m => Char.ofNat 45 :: natToChars (m + 1)

def intToStr (n : Int) : String := String.mk (intToChars n)

/-- JavaScript string conversion (template-literal interpolation). -/
def jsToString : JsVal → String
  | .sc (.str s) => s
  | .sc (.num n) => intToStr n
  | .sc (.bool b) => if b then ("true") else ("false")
  | .sc .null => "null"
  | .obj _ => "[object Object]"

/-- JavaScript whitespace recognised by `String.prototype.trim` (ASCII part),
by code point: space, tab, newline, carriage return, vertical tab, form feed. -/
def isJsWs (c : Char) : Bool :=
  c.toNat = 32 ∨ c.toNat = 9 ∨ c.toNat = 10 ∨ c.toNat = 13 ∨
    c.toNat = 11 ∨ c.toNat = 12

/-- `String.prototype.trim` on the character list. -/
def trimChars (cs : List Char) : List Char :=
  ((cs.dropWhile isJsWs).reverse.dropWhile isJsWs).reverse

/-- Model of `String.prototype.trim`. -/
def jsTrim (s : String) : String := String.mk (trimChars s.data)

/-- A line consisting only of whitespace (skipped by the YAML loader). -/
def isBlank (s : String) : Bool := s.data.all isJsWs

/-- `String.prototype.includes`, used for the version-conflict signature. -/
def containsSubstr (hay needle : String) : Bool :=
  (List.range (hay.data.length + 1)).any fun i => needle.data.isPrefixOf (hay.data.drop i)

/-- The newline character separating lines of a text document. -/
def nlChar : Char := Char.ofNat 10

/-- The single-quote character used by the YAML dump model. -/
def quoteChar : Char := Char.ofNat 39

/-- The lines of a string (split at newline characters). -/
def strLines (s : String) : List String :=
  (s.data.splitOn nlChar).map String.mk

/-- Joining lines back with newlines. -/
def joinLines (ls : List String) : String :=
  String.mk (List.intercalate [nlChar] (ls.map String.data))

/-- An ASCII letter (by code point). -/
def plainFirst (c : Char) : Bool :=
  (65 ≤ c.toNat ∧ c.toNat ≤ 90) ∨ (97 ≤ c.toNat ∧ c.toNat ≤ 122)

/-- Characters that js-yaml may emit unquoted in the modelled subset: ASCII
letters, digits, space, and `. _ - /`. -/
def plainChar (c : Char) : Bool :=
  plainFirst c ∨ (48 ≤ c.toNat ∧ c.toNat ≤ 57) ∨ c.toNat = 32 ∨
    c.toNat = 46 ∨ c.toNat = 95 ∨ c.toNat = 45 ∨ c.toNat = 47

/-- Strings that the dump model emits without quotes: starting with a
letter, made of plain characters, not ending in a space and not a reserved
word. -/
def plainSafe (s : String) : Bool :=
  match s.data with
  | [] => false
  | c :: _ =>
    plainFirst c && s.data.all plainChar &&
      (match s.data.getLast? with
       | some d => d.toNat != 32
       | none => true) &&
      !(s == "true") && !(s == "false") && !(s == "null")

/-- Model of `yaml.dump` for a string value: plain when safe, single-quoted
otherwise (faithful to js-yaml for strings free of newlines and quotes). -/
def dumpStr (s : String) : String :=
  if plainSafe s then s
  else String.mk (quoteChar :: s.data ++ [quoteChar])

/-- An ASCII digit (by code point). -/
def isDigitC (c : Char) : Bool := 48 ≤ c.toNat && c.toNat ≤ 57

/-- Integer literal recognition of the YAML core schema subset. -/
def isIntLit (cs : List Char) : Bool :=
  match cs with
  | [] => false
  | c :: rest =>
    if c.toNat = 45 then !(rest.isEmpty) && rest.all isDigitC
    else (c :: rest).all isDigitC

/-- Decimal value of a digit character list. -/
def digitsToNat (cs : List Char) : Nat :=
  cs.foldl (fun acc c => acc * 10 + (c.toNat - 48)) 0

/-- Integer value of a (possibly negated) digit character list. -/
def charsToInt (cs : List Char) : Int :=
  match cs with
  | [] => 0
  | c :: rest =>
    if c.toNat = 45 then -(digitsToNat rest : Int)
    else (digitsToNat (c :: rest) : Int)

/-- Model of js-yaml scalar resolution: trims the value text, recognises
single-quoted strings, `null`/`~`, booleans and integers; everything else is
a plain string. -/
def parseScalar (s : String) : Scalar :=
  match trimChars s.data with
  | [] => .null
  | c :: rest =>
    if c = quoteChar ∧ rest ≠ [] ∧ rest.getLast? = some quoteChar then
      .str (String.mk rest.dropLast)
    else
      let t := String.mk (c :: rest)
      if t = "~" ∨ t = "null" then .null
      else if t = "true" then .bool true
      else if t = "false" then .bool false
      else if isIntLit (c :: rest) then .num (charsToInt (c :: rest))
      else .str t

/-- Split a line at the first `": "` (or a trailing `":"`) into key text and
value text; `none` when the line is not a mapping entry. -/
def findColon : List Char → Option (List Char × List Char)
  | [] => none
  | c :: rest =>
    if c = ':' then
      match rest with
      | [] => some ([], [])
      | ' ' :: v => some ([], v)
      | _ => (findColon rest).map fun kv => (c :: kv.1, kv.2)
    else (findColon rest).map fun kv => (c :: kv.1, kv.2)

def splitEntry (l : String) : Option (String × String) :=
  (findColon l.data).map fun kv => (String.mk kv.1, String.mk kv.2)

/-- A continuation line of a nested block (starts with a space). -/
def isIndented (l : String) : Bool := l.data.head? = some ' '

/-- Flat mapping parser for a nested block (no further nesting allowed). -/
def parseFlat : List String → Except String (List (String × Scalar))
  | [] => .ok []
  | l :: rest =>
    if isIndented l then .error ("bad indentation of a mapping entry")
    else
      match splitEntry l with
      | none => .error ("can not read a block mapping entry")
      | some (k, v) => do
        let m ← parseFlat rest
        if (m.lookup k).isSome then .error ("duplicated mapping key")
        else .ok ((k, if isBlank v then .null else parseScalar v) :: m)

/-- Group a line list into top-level lines paired with their indented block;
returns the indented lines preceding any top-level line separately. -/
def groupLines : List String → List String × List (String × List String)
  | [] => ([], [])
  | l :: rest =>
    let pg := groupLines rest
    if isIndented l then (l :: pg.1, pg.2)
    else ([], (l, pg.1) :: pg.2)

/-- Two-space indentation stripping for a nested block line. -/
def stripIndent (l : String) : Except String String :=
  match l.data with
  | ' ' :: ' ' :: rest => .ok (String.mk rest)
  | _ => .error ("bad indentation of a mapping entry")

def stripBlock (ls : List String) : Except String (List String) :=
  ls.mapM stripIndent

/-- Top-level mapping parser over grouped lines. -/
def parseMapGroups : List (String × List String) → Except String (List (String × JsVal))
  | [] => .ok []
  | (l, blk) :: rest =>
    match splitEntry l with
    | none => .error ("can not read a block mapping entry")
    | some (k, v) => do
      let m ← parseMapGroups rest
      if (m.lookup k).isSome then .error ("duplicated mapping key")
      else if isBlank v then
        match blk with
        | [] => .ok ((k, .sc .null) :: m)
        | _ => do
          let stripped ← stripBlock blk
          let sub ← parseFlat stripped
          .ok ((k, .obj sub) :: m)
      else
        match blk with
        | [] => .ok ((k, .sc (parseScalar v)) :: m)
        | _ => .error ("bad indentation of a mapping entry")

/-- Wrap the result of the top-level mapping parse as a load result. -/
def parseTopGroups (gs : List (String × List String)) : LoadResult :=
  match parseMapGroups gs with
  | .ok m => .mapDoc m
  | .error e => .err e

/-- Model of `yaml.load` on the non-blank lines of a document. -/
def loadYamlFiltered (ls : List String) : LoadResult :=
  match ls with
  | [] => .undef
  | [l] =>
    if (splitEntry l).isSome ∧ !(isIndented l) then parseTopGroups [(l, [])]
    else .scalarDoc (parseScalar l)
  | _ =>
    match groupLines ls with
    | (_ :: _, _) => .err ("bad indentation of a mapping entry")
    | ([], gs) => parseTopGroups gs

/-- Model of `yaml.load` on the lines of a document (blank lines are skipped). -/
def loadYamlLines (ls0 : List String) : LoadResult :=
  loadYamlFiltered (ls0.filter fun l => !(isBlank l))

/-- Model of `yaml.load` on a whole document string. -/
def loadYamlDoc (s : String) : LoadResult := loadYamlLines (strLines s)

/-! ## Confluence page data model and YAML converters
(`src/helpers/confluenceHelper.ts`, `src/utils/confluenceYamlConverters.ts`) -/

structure SpaceRef where
  key : String
  name : String
deriving Repr, DecidableEq

/-- The `ConfluencePage` interface of `confluenceHelper.ts` (the `_links`
field, unused by the converters and the coordinator, is omitted).
`version` holds `version?.number`; `bodyStorage` / `bodyView` hold
`body?.storage?.value` / `body?.view?.value`. -/
structure ConfluencePage where
  id : String
  type : String
  status : String
  title : String
  space : Option SpaceRef
  version : Option Int
  bodyStorage : Option String
  bodyView : Option String
deriving Repr, DecidableEq

/-- `page.body?.storage?.value || page.body?.view?.value || ''`. -/
def pageContentOf (p : ConfluencePage) : String :=
  match p.bodyStorage with
  | some s => if s ≠ "" then s else
      match p.bodyView with
      | some v => if v ≠ "" then v else ""
      | none => ""
  | none =>
      match p.bodyView with
      | some v => if v ≠ "" then v else ""
      | none => ""

/-- `page.space?.key || ''`. -/
def pageSpaceKey (p : ConfluencePage) : String := (p.space.map SpaceRef.key).getD ""

/-- `page.space?.name || ''`. -/
def pageSpaceName (p : ConfluencePage) : String := (p.space.map SpaceRef.name).getD ""

/-- `page.version?.number || 1`. -/
def pageVersionNum (p : ConfluencePage) : Int :=
  match p.version with
  | some n => if n ≠ 0 then n else 1
  | none => 1

/-- The frontmatter block emitted by `yaml.dump` in `pageToYaml` (fixed key
order, one `key: value` line per field). -/
def pageFrontmatterLines (p : ConfluencePage) : List String :=
  ["entityType: page",
   "id: " ++ dumpStr p.id,
   "title: " ++ dumpStr p.title,
   "type: " ++ dumpStr p.type,
   "status: " ++ dumpStr p.status,
   "spaceKey: " ++ dumpStr (pageSpaceKey p),
   "spaceName: " ++ dumpStr (pageSpaceName p),
   "version: " ++ intToStr (pageVersionNum p)]

/-- The lines of `pageToYaml`: marker, frontmatter, marker, blank line, body. -/
def pageToYamlLines (p : ConfluencePage) : List String :=
  ("---" :: pageFrontmatterLines p) ++ ("---" :: "" :: strLines (pageContentOf p))

/-- `pageToYaml` of `confluenceYamlConverters.ts`: the string
` ---\n<frontmatter>---\n\n<content> ` (each frontmatter line ends with a
newline, hence equal to joining `pageToYamlLines`). -/
def pageToYaml (p : ConfluencePage) : String := joinLines (pageToYamlLines p)

/-- The mapping that loading the frontmatter block of `pageToYaml` yields. -/
def pageFmMap (p : ConfluencePage) : List (String × JsVal) :=
  [("entityType", .sc (.str "page")),
   ("id", .sc (.str p.id)),
   ("title", .sc (.str p.title)),
   ("type", .sc (.str p.type)),
   ("status", .sc (.str p.status)),
   ("spaceKey", .sc (.str (pageSpaceKey p))),
   ("spaceName", .sc (.str (pageSpaceName p))),
   ("version", .sc (parseScalar (intToStr (pageVersionNum p))))]

/-- A sample page with an already-trimmed body, used in concrete checks. -/
def samplePageTrimmed : ConfluencePage :=
  { id := "1", type := "page", status := "current", title := "T",
    space := some { key := "SP", name := "Sp name" }, version := some 3,
    bodyStorage := some ("hello"), bodyView := none }

/-- A sample page whose body has a leading space, used in concrete checks. -/
def samplePagePadded : ConfluencePage :=
  { id := "1", type := "page", status := "current", title := "T",
    space := none, version := some 3,
    bodyStorage := some (" hello"), bodyView := none }

/-- The partial page returned by `yamlToPage` (`Partial<ConfluencePage>`):
`none` models an `undefined` field; `body` is `body.storage.value`. -/
structure PartialPage where
  id : Option JsVal
  type : JsVal
  status : JsVal
  title : JsVal
  space : Option (JsVal × JsVal)
  version : Option JsVal
  body : String
deriving Repr, DecidableEq

/-- The object literal built at the end of `yamlToPage`, from a frontmatter
lookup function `g` and the extracted content. -/
def buildPartialPage (g : String → Option JsVal) (content : String) : PartialPage :=
  { id := g "id"
    type := jsOrV (g "type") (.sc (.str "page"))
    status := jsOrV (g "status") (.sc (.str "current"))
    title := jsOrV (g "title") (.sc (.str "Untitled"))
    space :=
      match g "spaceKey" with
      | some k => if k.truthy then some (k, jsOrV (g "spaceName") k) else none
      | none => none
    version :=
      match g "version" with
      | some v => if v.truthy then some v else none
      | none => none
    body := content }

/-- Frontmatter property access (`frontmatter.k`); `none` is `undefined`. -/
def docGet (m : List (String × JsVal)) (k : String) : Option JsVal := m.lookup k

/-- `parts.slice(2).join('---').trim()` at the line level. -/
def partsContent (parts : List (List String)) : String :=
  jsTrim (joinLines (List.intercalate ["---"] (parts.drop 2)))

/-- `yamlToPage` of `confluenceYamlConverters.ts`.  The `/^---$/m` split is
the line-level split at lines equal to `---`; a thrown exception
(`YAMLException`, or the `TypeError` of reading a property of the
`undefined`/`null` result of `yaml.load` on a blank frontmatter) is
`Except.error`. -/
def yamlToPage (text : String) : Except String PartialPage :=
  let parts := (strLines text).splitOn "---"
  if parts.length ≥ 3 then
    match loadYamlLines (parts.getD 1 []) with
    | .err e => .error e
    | .undef => .error ("TypeError: Cannot read properties of undefined (reading id)")
    | .scalarDoc .null => .error ("TypeError: Cannot read properties of null (reading id)")
    | .scalarDoc _ => .ok (buildPartialPage (fun _ => none) (partsContent parts))
    | .mapDoc m => .ok (buildPartialPage (docGet m) (partsContent parts))
  else
    .ok (buildPartialPage (fun _ => none) text)

/-- The record returned by `extractPageContent`. -/
structure ExtractedPage where
  title : JsVal
  content : String
  version : JsVal
deriving Repr, DecidableEq

def buildExtractedPage (g : String → Option JsVal) (content : String) : ExtractedPage :=
  { title := jsOrV (g "title") (.sc (.str "Untitled"))
    content := content
    version := jsOrV (g "version") (.sc (.num 1)) }

/-- `extractPageContent` of `confluenceYamlConverters.ts`: same split and
load as `yamlToPage`, returning title, trimmed content and
`frontmatter.version || 1`. -/
def extractPageContent (text : String) : Except String ExtractedPage :=
  let parts := (strLines text).splitOn "---"
  if parts.length ≥ 3 then
    match loadYamlLines (parts.getD 1 []) with
    | .err e => .error e
    | .undef => .error ("TypeError: Cannot read properties of undefined (reading title)")
    | .scalarDoc .null => .error ("TypeError: Cannot read properties of null (reading title)")
    | .scalarDoc _ => .ok (buildExtractedPage (fun _ => none) (partsContent parts))
    | .mapDoc m => .ok (buildExtractedPage (docGet m) (partsContent parts))
  else
    .ok (buildExtractedPage (fun _ => none) text)

/-! ## Jira issue YAML converters (`src/utils/formatters.ts`) -/

/-- Nested access `data.fields?.k` once `data.fields` has been looked up. -/
def fieldGet (fv : Option JsVal) (k : String) : Option Scalar :=
  match fv with
  | some (.obj m) => m.lookup k
  | _ => none

/-- The `Partial<JiraIssue>` built by `yamlToIssue`; `none` models an
`undefined` field.  `assignee`/`reporter` hold `(displayName, emailAddress)`;
`status`/`priority`/`issuetype` hold the `name` of the wrapped object. -/
structure PartialIssue where
  key : Option JsVal
  id : Option JsVal
  summary : Scalar
  description : Option Scalar
  status : Option Scalar
  assignee : Option (Option Scalar × Scalar)
  reporter : Option (Option Scalar × Scalar)
  priority : Option Scalar
  issuetype : Option Scalar
  created : Option Scalar
  updated : Option Scalar
deriving Repr, DecidableEq

def buildPartialIssue (g : String → Option JsVal) : PartialIssue :=
  { key := g "key"
    id := g "id"
    summary := jsOrS (fieldGet (g "fields") "summary") (.str "")
    description := fieldGet (g "fields") "description"
    status :=
      match fieldGet (g "fields") "status" with
      | some v => if v.truthy then some v else none
      | none => none
    assignee :=
      match fieldGet (g "fields") "assigneeEmail" with
      | some e => if e.truthy then some (fieldGet (g "fields") "assignee", e) else none
      | none => none
    reporter :=
      match fieldGet (g "fields") "reporterEmail" with
      | some e => if e.truthy then some (fieldGet (g "fields") "reporter", e) else none
      | none => none
    priority :=
      match fieldGet (g "fields") "priority" with
      | some v => if v.truthy then some v else none
      | none => none
    issuetype :=
      match fieldGet (g "fields") "issuetype" with
      | some v => if v.truthy then some v else none
      | none => none
    created := fieldGet (g "fields") "created"
    updated := fieldGet (g "fields") "updated" }

/-- `yamlToIssue` of `formatters.ts`: loads the whole document and reads the
fields; accessing a property of an `undefined`/`null` document throws. -/
def yamlToIssue (text : String) : Except String PartialIssue :=
  match loadYamlDoc text with
  | .err e => .error e
  | .undef => .error ("TypeError: Cannot read properties of undefined (reading key)")
  | .scalarDoc .null => .error ("TypeError: Cannot read properties of null (reading key)")
  | .scalarDoc _ => .ok (buildPartialIssue (fun _ => none))
  | .mapDoc m => .ok (buildPartialIssue (docGet m))

/-- The update payload built by `extractIssueFields`: `summary` is always a
property (possibly holding `undefined`, dropped by JSON serialization);
`description` is included only when truthy; `priority` holds the `name` of
the wrapped `{ name }`; `assignee` holds the `accountId` of the wrapped
`{ accountId }`.  The payload has no version field. -/
structure IssueFields where
  summary : Option Scalar
  description : Option Scalar
  priority : Option Scalar
  assignee : Option Scalar
deriving Repr, DecidableEq

def buildIssueFields (g : String → Option JsVal) : IssueFields :=
  { summary := fieldGet (g "fields") "summary"
    description :=
      match fieldGet (g "fields") "description" with
      | some v => if v.truthy then some v else none
      | none => none
    priority :=
      match fieldGet (g "fields") "priority" with
      | some v => if v.truthy then some v else none
      | none => none
    assignee :=
      match fieldGet (g "fields") "assigneeEmail" with
      | some e => if e.truthy then some e else none
      | none => none }

/-- `extractIssueFields` of `formatters.ts`. -/
def extractIssueFields (text : String) : Except String IssueFields :=
  match loadYamlDoc text with
  | .err e => .error e
  | .undef => .error ("TypeError: Cannot read properties of undefined (reading fields)")
  | .scalarDoc .null => .error ("TypeError: Cannot read properties of null (reading fields)")
  | .scalarDoc _ => .ok (buildIssueFields (fun _ => none))
  | .mapDoc m => .ok (buildIssueFields (docGet m))

/-! ## Request executor response handling
(`ConfluenceHelper.request` / `JiraHelper.request`) -/

/-- What a request promise resolves with on a 2xx status. -/
inductive RespValue where
  | jsonVal (v : JsVal)
  | rawText (s : String)
deriving Repr, DecidableEq

/-- The `res.on('end')` handler of `ConfluenceHelper.request`: `statusCode`
is `none` for an absent status; `parseJson` is the (abstract) `JSON.parse`,
returning `none` when it would throw. -/
def confluenceHandleResponse (parseJson : String → Option JsVal)
    (statusCode : Option Nat) (data : String) : Except String RespValue :=
  match statusCode with
  | some c =>
    if c ≥ 200 ∧ c < 300 then
      .ok (if data = "" then .jsonVal (.obj [])
           else match parseJson data with
                | some v => .jsonVal v
                | none => .rawText data)
    else .error ("Confluence API error: " ++ toString c ++ " - " ++ data)
  | none => .error ("Confluence API error: undefined - " ++ data)

/-- The `res.on('end')` handler of `JiraHelper.request` (identical logic,
different error prefix). -/
def jiraHandleResponse (parseJson : String → Option JsVal)
    (statusCode : Option Nat) (data : String) : Except String RespValue :=
  match statusCode with
  | some c =>
    if c ≥ 200 ∧ c < 300 then
      .ok (if data = "" then .jsonVal (.obj [])
           else match parseJson data with
                | some v => .jsonVal v
                | none => .rawText data)
    else .error ("JIRA API error: " ++ toString c ++ " - " ++ data)
  | none => .error ("JIRA API error: undefined - " ++ data)

/-! ## Optimistic update coordinator
(`updateConfluencePageTool` and `saveToConfluenceCommand` of
`confluenceCommands.ts`, over `ConfluenceHelper.getPage` / `updatePage` /
`createPage`).  Remote responses are supplied as streams in a `World`;
every HTTP call made is recorded in a `Trace`. -/

/-- One `ConfluenceHelper.updatePage` call as seen on the wire:
`wireVersion` is the `version.number` of the PUT body, i.e. the `version`
argument plus one. -/
structure UpdateCall where
  pageId : JsVal
  title : JsVal
  content : String
  wireVersion : JsVal
deriving Repr, DecidableEq

structure CreateCall where
  spaceKey : JsVal
  title : JsVal
  content : String
deriving Repr, DecidableEq

structure World where
  getPageResults : List (Except String ConfluencePage)
  updatePageResults : List (Except String ConfluencePage)
  createPageResults : List (Except String ConfluencePage)
deriving Repr, DecidableEq

structure Trace where
  updates : List UpdateCall
  creates : List CreateCall
  gets : Nat
deriving Repr, DecidableEq

def Trace.empty : Trace := ⟨[], [], 0⟩

/-- JavaScript `+ 1` on a dynamic value (string concatenation for strings). -/
def jsAdd1 : JsVal → JsVal
  | .sc (.num n) => .sc (.num (n + 1))
  | .sc (.str s) => .sc (.str (s ++ "1"))
  | .sc (.bool b) => .sc (.num (if b then 2 else 1))
  | .sc .null => .sc (.num 1)
  | .obj _ => .sc (.str "[object Object]1")

/-- `ConfluenceHelper.getPage`: consume the next get response. -/
def callGetPage (w : World) (t : Trace) :
    Except String ConfluencePage × World × Trace :=
  match w.getPageResults with
  | [] => (.error ("no response"), w, { t with gets := t.gets + 1 })
  | r :: rs => (r, { w with getPageResults := rs }, { t with gets := t.gets + 1 })

/-- `ConfluenceHelper.updatePage(pageId, title, content, version)`: PUTs a
body with `version: { number: version + 1 }` and consumes the next update
response. -/
def callUpdatePage (w : World) (t : Trace) (pageId title : JsVal)
    (content : String) (version : JsVal) :
    Except String ConfluencePage × World × Trace :=
  let call : UpdateCall := ⟨pageId, title, content, jsAdd1 version⟩
  match w.updatePageResults with
  | [] => (.error ("no response"), w, { t with updates := t.updates ++ [call] })
  | r :: rs => (r, { w with updatePageResults := rs },
      { t with updates := t.updates ++ [call] })

/-- `ConfluenceHelper.createPage`: consume the next create response. -/
def callCreatePage (w : World) (t : Trace) (spaceKey title : JsVal)
    (content : String) : Except String ConfluencePage × World × Trace :=
  let call : CreateCall := ⟨spaceKey, title, content⟩
  match w.createPageResults with
  | [] => (.error ("no response"), w, { t with creates := t.creates ++ [call] })
  | r :: rs => (r, { w with createPageResults := rs },
      { t with creates := t.creates ++ [call] })

/-- Result returned by a language-model tool invocation. -/
structure ToolOutcome where
  ok : Bool
  message : String
deriving Repr, DecidableEq

/-- Modelled from the spec: `createSuccessResult` lives in
`utils/errorHandler.ts`, which is absent from the sources (only its callers
are present); per the spec, Done returns a success result carrying the
confirmation message. -/
def createSuccessResult (m : String) : ToolOutcome := ⟨true, m⟩

/-- Modelled from the spec: `handleToolError` lives in
`utils/errorHandler.ts`, absent from the sources; per the spec, Failed
returns a descriptive error combining the context and the underlying
transport error message. -/
def handleToolError (context errMsg : String) : ToolOutcome :=
  ⟨false, context ++ ": " ++ errMsg⟩

/-- The conflict signature matched by the tool. -/
def conflictSignature : String := "Version must be incremented"

/-- Version determination of `updateConfluencePageTool`: use the provided
version when truthy, otherwise fetch the page and use
`currentPage.version?.number`, throwing when that is falsy. -/
def toolResolveVersion (providedVersion : Option Int) (w : World) (t : Trace) :
    Except String Int × World × Trace :=
  let fetch : Except String Int × World × Trace :=
    match callGetPage w t with
    | (.error e, w1, t1) => (.error e, w1, t1)
    | (.ok page, w1, t1) =>
      match page.version with
      | some n =>
        if n ≠ 0 then (.ok n, w1, t1)
        else (.error ("Could not determine page version"), w1, t1)
      | none => (.error ("Could not determine page version"), w1, t1)
  match providedVersion with
  | some v => if v ≠ 0 then (.ok v, w, t) else fetch
  | none => fetch

/-- The catch block of `updateConfluencePageTool`: on the conflict
signature, re-fetch the current version and retry the update exactly once;
otherwise fail. -/
def toolCatch (pageId title content : String) (e : String) (w : World) (t : Trace) :
    ToolOutcome × World × Trace :=
  let retryContext := "Failed to update Confluence page " ++ pageId ++ " after retry"
  if containsSubstr e conflictSignature then
    match callGetPage w t with
    | (.error e2, w1, t1) => (handleToolError retryContext e2, w1, t1)
    | (.ok page, w1, t1) =>
      match page.version with
      | some cv =>
        if cv ≠ 0 then
          match callUpdatePage w1 t1 (.sc (.str pageId)) (.sc (.str title)) content
              (.sc (.num cv)) with
          | (.ok _, w2, t2) =>
            (createSuccessResult ("Page updated: " ++ title ++
              " (auto-resolved version conflict)"), w2, t2)
          | (.error e3, w2, t2) => (handleToolError retryContext e3, w2, t2)
        else
          (handleToolError retryContext ("Could not determine current page version"), w1, t1)
      | none =>
        (handleToolError retryContext ("Could not determine current page version"), w1, t1)
  else
    (handleToolError ("Failed to update Confluence page " ++ pageId) e, w, t)

/-- `updateConfluencePageTool` of `confluenceCommands.ts` (the `invoke`
handler, after the configured-helper guard). -/
def updateConfluencePageTool (pageId title content : String)
    (providedVersion : Option Int) (w : World) : ToolOutcome × World × Trace :=
  match toolResolveVersion providedVersion w Trace.empty with
  | (.ok version, w1, t1) =>
    match callUpdatePage w1 t1 (.sc (.str pageId)) (.sc (.str title)) content
        (.sc (.num version)) with
    | (.ok _, w2, t2) => (createSuccessResult ("Page updated: " ++ title), w2, t2)
    | (.error e, w2, t2) => toolCatch pageId title content e w2 t2
  | (.error e, w1, t1) => toolCatch pageId title content e w1 t1

/-- The user-visible outcome of an editor command. -/
inductive CmdOutcome where
  | info (msg : String)
  | errorNote (msg : String)
  | silent
deriving Repr, DecidableEq

/-- `saveToConfluenceCommand` of `confluenceCommands.ts` (after the
configured-helper and file-name guards), on the text of the active editor.
A caught exception `error` is shown as
`Failed to save to Confluence: ${error}`. -/
def saveToConfluenceCommand (text : String) (w : World) : CmdOutcome × World × Trace :=
  let t0 := Trace.empty
  match yamlToPage text with
  | .error e => (.errorNote ("Failed to save to Confluence: Error: " ++ e), w, t0)
  | .ok pageData =>
    match extractPageContent text with
    | .error e => (.errorNote ("Failed to save to Confluence: Error: " ++ e), w, t0)
    | .ok extracted =>
      if pageData.id = some (.sc (.str "new")) then
        match pageData.space with
        | some (k, _) =>
          if k.truthy then
            match callCreatePage w t0 k extracted.title extracted.content with
            | (.ok newPage, w1, t1) => (.info ("Created page: " ++ newPage.title), w1, t1)
            | (.error e, w1, t1) =>
              (.errorNote ("Failed to save to Confluence: Error: " ++ e), w1, t1)
          else (.errorNote ("Space key is required to create a page"), w, t0)
        | none => (.errorNote ("Space key is required to create a page"), w, t0)
      else
        match pageData.id with
        | some idv =>
          if idv.truthy then
            match callUpdatePage w t0 idv extracted.title extracted.content
                extracted.version with
            | (.ok _, w1, t1) =>
              (.info ("Updated page: " ++ jsToString extracted.title), w1, t1)
            | (.error e, w1, t1) =>
              (.errorNote ("Failed to save to Confluence: Error: " ++ e), w1, t1)
          else (.silent, w, t0)
        | none => (.silent, w, t0)

/-! ## Jira save command (`saveToJiraCommand` of `confluenceCommands.ts`,
over `JiraHelper.updateIssue` / `createIssue`). -/

structure JiraUpdateCall where
  issueKey : JsVal
  fields : IssueFields
deriving Repr, DecidableEq

structure JiraCreateCall where
  projectKey : String
  summary : Scalar
  issuetype : String
  description : Option Scalar
deriving Repr, DecidableEq

structure JiraWorld where
  updateIssueResults : List (Except String Unit)
  createIssueResults : List (Except String String)
deriving Repr, DecidableEq

structure JiraTrace where
  updates : List JiraUpdateCall
  creates : List JiraCreateCall
deriving Repr, DecidableEq

def JiraTrace.empty : JiraTrace := ⟨[], []⟩

/-- `JiraHelper.updateIssue(issueKey, fields)`: one PUT of `{ fields }`,
no version anywhere in the payload. -/
def callUpdateIssue (w : JiraWorld) (t : JiraTrace) (issueKey : JsVal)
    (fields : IssueFields) : Except String Unit × JiraWorld × JiraTrace :=
  let call : JiraUpdateCall := ⟨issueKey, fields⟩
  match w.updateIssueResults with
  | [] => (.error ("no response"), w, { t with updates := t.updates ++ [call] })
  | r :: rs => (r, { w with updateIssueResults := rs },
      { t with updates := t.updates ++ [call] })

/-- `JiraHelper.createIssue` (POST then `getIssue`), collapsed to one
response carrying the created issue key. -/
def callCreateIssue (w : JiraWorld) (t : JiraTrace) (projectKey : String)
    (summary : Scalar) (issuetype : String) (description : Option Scalar) :
    Except String String × JiraWorld × JiraTrace :=
  let call : JiraCreateCall := ⟨projectKey, summary, issuetype, description⟩
  match w.createIssueResults with
  | [] => (.error ("no response"), w, { t with creates := t.creates ++ [call] })
  | r :: rs => (r, { w with createIssueResults := rs },
      { t with creates := t.creates ++ [call] })

/-- `saveToJiraCommand` of `confluenceCommands.ts` (after the guards), on
the text of the active editor.  `inputBoxProjectKey` models the
`showInputBox` answer used on the create path (where
`yamlData.projectKey` is always `undefined`, `extractIssueFields` having no
such property). -/
def saveToJiraCommand (text : String) (inputBoxProjectKey : Option String)
    (w : JiraWorld) : CmdOutcome × JiraWorld × JiraTrace :=
  let t0 := JiraTrace.empty
  match yamlToIssue text with
  | .error e => (.errorNote ("Failed to save to Jira: Error: " ++ e), w, t0)
  | .ok issueData =>
    if issueData.id = some (.sc (.str "new")) ∨ issueData.key = some (.sc (.str "NEW")) then
      match extractIssueFields text with
      | .error e => (.errorNote ("Failed to save to Jira: Error: " ++ e), w, t0)
      | .ok yamlData =>
        match inputBoxProjectKey with
        | none => (.silent, w, t0)
        | some pk =>
          if pk = "" then (.silent, w, t0)
          else
            match callCreateIssue w t0 pk (jsOrS yamlData.summary (.str "New Issue"))
                ("Task") yamlData.description with
            | (.ok newKey, w1, t1) => (.info ("Created issue: " ++ newKey), w1, t1)
            | (.error e, w1, t1) =>
              (.errorNote ("Failed to save to Jira: Error: " ++ e), w1, t1)
    else
      match issueData.key with
      | some kv =>
        if kv.truthy then
          match extractIssueFields text with
          | .error e => (.errorNote ("Failed to save to Jira: Error: " ++ e), w, t0)
          | .ok fields =>
            match callUpdateIssue w t0 kv fields with
            | (.ok _, w1, t1) => (.info ("Updated issue: " ++ jsToString kv), w1, t1)
            | (.error e, w1, t1) =>
              (.errorNote ("Failed to save to Jira: Error: " ++ e), w1, t1)
        else (.silent, w, t0)
      | none => (.silent, w, t0)

/-- Whether a fallible computation succeeded (no exception thrown). -/
def isOkE {α : Type} : Except String α → Bool
  | .ok _ => true
  | .error _ => false

/-- An optional JavaScript value that is absent or falsy. -/
def jsFalsyV (o : Option JsVal) : Bool :=
  match o with
  | some v => !v.truthy
  | none => true

/-- An optional primitive that is absent or falsy. -/
def jsFalsyS (o : Option Scalar) : Bool :=
  match o with
  | some v => !v.truthy
  | none => true

/-- Strings safely representable by the modelled `yaml.dump`: no control
characters (in particular no newlines or tabs) and no single quotes. -/
def simpleStr (s : String) : Bool :=
  s.data.all fun c => 32 ≤ c.toNat ∧ c.toNat ≠ 39

/-! ## Helper lemmas -/

theorem length_splitOn_count {α : Type} [DecidableEq α] (x : α) (l : List α) :
    (l.splitOn x).length = l.count x + 1 := by
  induction l with
  | nil => simp [List.splitOn]
  | cons a l ih =>
    simp only [List.splitOn] at ih ⊢
    rw [List.splitOnP_cons]
    by_cases h : a = x
    · subst h; simp_all [List.count_cons]
    · simp_all [List.count_cons, h]

/-- With fewer than two marker lines, `yamlToPage` takes the no-frontmatter
branch. -/
theorem yamlToPage_count_le_one (text : String)
    (h : (strLines text).count ("---") ≤ 1) :
    yamlToPage text = .ok (buildPartialPage (fun _ => none) text) := by
  unfold yamlToPage
  rw [if_neg]
  rw [length_splitOn_count]
  omega

theorem extractPageContent_count_le_one (text : String)
    (h : (strLines text).count ("---") ≤ 1) :
    extractPageContent text = .ok (buildExtractedPage (fun _ => none) text) := by
  unfold extractPageContent
  rw [if_neg]
  rw [length_splitOn_count]
  omega

theorem yamlToPage_of_mapDoc (text : String) (m : List (String × JsVal))
    (hlen : ((strLines text).splitOn ("---")).length ≥ 3)
    (hload : loadYamlLines (((strLines text).splitOn ("---")).getD 1 []) = .mapDoc m) :
    yamlToPage text =
      .ok (buildPartialPage (docGet m) (partsContent ((strLines text).splitOn ("---")))) := by
  unfold yamlToPage
  rw [if_pos hlen, hload]

theorem extractPageContent_of_mapDoc (text : String) (m : List (String × JsVal))
    (hlen : ((strLines text).splitOn ("---")).length ≥ 3)
    (hload : loadYamlLines (((strLines text).splitOn ("---")).getD 1 []) = .mapDoc m) :
    extractPageContent text =
      .ok (buildExtractedPage (docGet m) (partsContent ((strLines text).splitOn ("---")))) := by
  unfold extractPageContent
  rw [if_pos hlen, hload]

theorem yamlToPage_isOk_of_mapDoc (text : String) (m : List (String × JsVal))
    (hload : loadYamlLines (((strLines text).splitOn ("---")).getD 1 []) = .mapDoc m) :
    isOkE (yamlToPage text) = true := by
  unfold yamlToPage
  by_cases hlen : ((strLines text).splitOn ("---")).length ≥ 3
  · rw [if_pos hlen, hload]; rfl
  · rw [if_neg hlen]; rfl

theorem yamlToIssue_of_mapDoc (text : String) (m : List (String × JsVal))
    (hload : loadYamlDoc text = .mapDoc m) :
    yamlToIssue text = .ok (buildPartialIssue (docGet m)) := by
  unfold yamlToIssue
  rw [hload]

theorem extractIssueFields_of_mapDoc (text : String) (m : List (String × JsVal))
    (hload : loadYamlDoc text = .mapDoc m) :
    extractIssueFields text = .ok (buildIssueFields (docGet m)) := by
  unfold extractIssueFields
  rw [hload]

/-! ## C7: zero or one marker line -/

/-- C7: for every input text containing zero or one marker line (a line that
is exactly `---`), `yamlToPage` does not raise, the returned body is the full
input text unchanged, and no frontmatter-derived field is populated (`id`,
`space`, `version` are absent; `type`, `status`, `title` carry their fixed
defaults). -/
theorem yamlToPage_graceful_degradation (text : String)
    (h : (strLines text).count ("---") ≤ 1) :
    yamlToPage text = .ok
      { id := none, type := .sc (.str "page"), status := .sc (.str "current"),
        title := .sc (.str "Untitled"), space := none, version := none,
        body := text } := by
  rw [yamlToPage_count_le_one text h]
  rfl

theorem yamlToPage_graceful_degradation_witness :
    (strLines ("a\n---\nno second marker")).count ("---") ≤ 1 ∧
      yamlToPage ("a\n---\nno second marker") = .ok
        { id := none, type := .sc (.str "page"), status := .sc (.str "current"),
          title := .sc (.str "Untitled"), space := none, version := none,
          body := "a\n---\nno second marker" } :=
  ⟨by decide, yamlToPage_graceful_degradation ("a\n---\nno second marker") (by decide)⟩

/-! ## C4: deserialization can throw -/

/-- C4 counterexample: deserialization does throw on some inputs.  A page
document with two markers and a blank frontmatter makes `yaml.load` return
`undefined` and `frontmatter.id` throws; `yamlToIssue` on the empty document
likewise throws reading `data.key`. -/
theorem deserialize_throws_counterexample :
    isOkE (yamlToPage ("---\n---\nbody")) = false ∧
      isOkE (yamlToIssue ("")) = false := by
  constructor <;> rfl

/-- C4 amended: deserialization does not throw on documents whose
frontmatter (for pages, when two markers are present) or whole document (for
issues) loads as a YAML mapping, and `yamlToPage` never throws when fewer
than two marker lines are present; blank or malformed frontmatter raises an
exception that the callers catch. -/
theorem deserialize_total_on_mappings :
    (∀ text m, loadYamlLines (((strLines text).splitOn ("---")).getD 1 []) = .mapDoc m →
      isOkE (yamlToPage text) = true) ∧
    (∀ text, (strLines text).count ("---") ≤ 1 → isOkE (yamlToPage text) = true) ∧
    (∀ text m, loadYamlDoc text = .mapDoc m → isOkE (yamlToIssue text) = true) := by
  refine ⟨fun text m h => yamlToPage_isOk_of_mapDoc text m h, ?_, ?_⟩
  · intro text h
    rw [yamlToPage_count_le_one text h]
    rfl
  · intro text m h
    rw [yamlToIssue_of_mapDoc text m h]
    rfl

theorem deserialize_total_on_mappings_witness :
    isOkE (yamlToPage ("---\nid: p1\n---\nb")) = true ∧
      isOkE (yamlToPage ("plain text")) = true ∧
      isOkE (yamlToIssue ("key: K-1")) = true :=
  ⟨deserialize_total_on_mappings.1 ("---\nid: p1\n---\nb")
      [("id", .sc (.str "p1"))] (by decide),
   deserialize_total_on_mappings.2.1 ("plain text") (by decide),
   deserialize_total_on_mappings.2.2 ("key: K-1")
      [("key", .sc (.str "K-1"))] (by decide)⟩

/-! ## C5: absent preamble fields -/

/-- C5 counterexample: a parsed document whose preamble holds only `id`
yields `title`/`type`/`status` populated with defaults (`Untitled`, `page`,
`current`) rather than omitted. -/
theorem absent_fields_defaulted_counterexample :
    loadYamlLines (["id: p1"]) = .mapDoc [("id", .sc (.str "p1"))] ∧
      yamlToPage ("---\nid: p1\n---\nb") = .ok
        { id := some (.sc (.str "p1")), type := .sc (.str "page"),
          status := .sc (.str "current"), title := .sc (.str "Untitled"),
          space := none, version := none, body := "b" } := by
  constructor <;> rfl

/-- C5 amended: `id` is copied through exactly (absent means omitted), and
`space`/`version` are omitted when their preamble keys are absent or falsy;
but `title`, `type` and `status` are defaulted to `Untitled`/`page`/`current`
when absent or empty, not omitted. -/
theorem deserialize_field_policy (text : String) (m : List (String × JsVal))
    (pp : PartialPage)
    (hlen : ((strLines text).splitOn ("---")).length ≥ 3)
    (hload : loadYamlLines (((strLines text).splitOn ("---")).getD 1 []) = .mapDoc m)
    (hok : yamlToPage text = .ok pp) :
    pp.id = docGet m "id" ∧
    (jsFalsyV (docGet m "spaceKey") = true → pp.space = none) ∧
    (jsFalsyV (docGet m "version") = true → pp.version = none) ∧
    (jsFalsyV (docGet m "title") = true → pp.title = .sc (.str "Untitled")) ∧
    (jsFalsyV (docGet m "type") = true → pp.type = .sc (.str "page")) ∧
    (jsFalsyV (docGet m "status") = true → pp.status = .sc (.str "current")) := by
  rw [yamlToPage_of_mapDoc text m hlen hload] at hok
  have hpp : pp = buildPartialPage (docGet m)
      (partsContent ((strLines text).splitOn ("---"))) := by
    cases hok
    rfl
  subst hpp
  refine ⟨rfl, ?_, ?_, ?_, ?_, ?_⟩
  · intro h
    rcases hv : docGet m "spaceKey" with _ | v
    · simp [buildPartialPage, hv]
    · rw [hv] at h
      simp only [jsFalsyV, Bool.not_eq_true'] at h
      simp [buildPartialPage, hv, h]
  · intro h
    rcases hv : docGet m "version" with _ | v
    · simp [buildPartialPage, hv]
    · rw [hv] at h
      simp only [jsFalsyV, Bool.not_eq_true'] at h
      simp [buildPartialPage, hv, h]
  · intro h
    rcases hv : docGet m "title" with _ | v
    · simp [buildPartialPage, jsOrV, hv]
    · rw [hv] at h
      simp only [jsFalsyV, Bool.not_eq_true'] at h
      simp [buildPartialPage, jsOrV, hv, h]
  · intro h
    rcases hv : docGet m "type" with _ | v
    · simp [buildPartialPage, jsOrV, hv]
    · rw [hv] at h
      simp only [jsFalsyV, Bool.not_eq_true'] at h
      simp [buildPartialPage, jsOrV, hv, h]
  · intro h
    rcases hv : docGet m "status" with _ | v
    · simp [buildPartialPage, jsOrV, hv]
    · rw [hv] at h
      simp only [jsFalsyV, Bool.not_eq_true'] at h
      simp [buildPartialPage, jsOrV, hv, h]

theorem deserialize_field_policy_witness :
    jsFalsyV (docGet [("id", JsVal.sc (.str "p1"))] ("title")) = true ∧
      ({ id := some (.sc (.str "p1")), type := .sc (.str "page"),
         status := .sc (.str "current"), title := .sc (.str "Untitled"),
         space := none, version := none, body := "b" } : PartialPage).title =
        .sc (.str "Untitled") :=
  ⟨by decide,
   (deserialize_field_policy ("---\nid: p1\n---\nb")
      [("id", JsVal.sc (.str "p1"))]
      { id := some (.sc (.str "p1")), type := .sc (.str "page"),
        status := .sc (.str "current"), title := .sc (.str "Untitled"),
        space := none, version := none, body := "b" }
      (by decide) (by decide) (by decide)).2.2.2.1 (by decide)⟩

/-! ## C9: empty preamble values and unknown keys -/

/-- C9 counterexample: a known preamble key with an empty value is not
always treated as unset — an empty `summary` is copied into the update
payload as the empty string (and survives JSON serialization), not omitted. -/
theorem empty_value_unset_counterexample :
    extractIssueFields ("fields:\n  summary: ''") = .ok
      { summary := some (.str ""), description := none, priority := none,
        assignee := none } ∧
      some (Scalar.str "") ≠ (none : Option Scalar) := by
  constructor
  · rfl
  · intro h
    cases h

/-- C9 amended: for `description`, `priority` and the assignee contact the
policy holds — an absent or empty value leaves the field out of the update
payload entirely (in particular an empty `assigneeEmail` omits `assignee`);
`summary` however is copied through even when empty; unknown preamble keys
are ignored silently (the payload depends only on the four known keys). -/
theorem update_payload_policy :
    (∀ text m fields, loadYamlDoc text = .mapDoc m →
      extractIssueFields text = .ok fields →
      fields.summary = fieldGet (docGet m "fields") ("summary") ∧
      (jsFalsyS (fieldGet (docGet m "fields") ("assigneeEmail")) = true →
        fields.assignee = none) ∧
      (jsFalsyS (fieldGet (docGet m "fields") ("description")) = true →
        fields.description = none) ∧
      (jsFalsyS (fieldGet (docGet m "fields") ("priority")) = true →
        fields.priority = none)) ∧
    (∀ g1 g2 : String → Option JsVal,
      fieldGet (g1 "fields") ("summary") = fieldGet (g2 "fields") ("summary") →
      fieldGet (g1 "fields") ("description") = fieldGet (g2 "fields") ("description") →
      fieldGet (g1 "fields") ("priority") = fieldGet (g2 "fields") ("priority") →
      fieldGet (g1 "fields") ("assigneeEmail") = fieldGet (g2 "fields") ("assigneeEmail") →
      buildIssueFields g1 = buildIssueFields g2) := by
  constructor
  · intro text m fields hload hok
    rw [extractIssueFields_of_mapDoc text m hload] at hok
    have hf : fields = buildIssueFields (docGet m) := by
      cases hok
      rfl
    subst hf
    refine ⟨rfl, ?_, ?_, ?_⟩
    · intro h
      rcases hv : fieldGet (docGet m "fields") ("assigneeEmail") with _ | v
      · simp [buildIssueFields, hv]
      · rw [hv] at h
        simp only [jsFalsyS, Bool.not_eq_true'] at h
        simp [buildIssueFields, hv, h]
    · intro h
      rcases hv : fieldGet (docGet m "fields") ("description") with _ | v
      · simp [buildIssueFields, hv]
      · rw [hv] at h
        simp only [jsFalsyS, Bool.not_eq_true'] at h
        simp [buildIssueFields, hv, h]
    · intro h
      rcases hv : fieldGet (docGet m "fields") ("priority") with _ | v
      · simp [buildIssueFields, hv]
      · rw [hv] at h
        simp only [jsFalsyS, Bool.not_eq_true'] at h
        simp [buildIssueFields, hv, h]
  · intro g1 g2 h1 h2 h3 h4
    unfold buildIssueFields
    rw [h1, h2, h3, h4]

theorem update_payload_policy_witness :
    extractIssueFields ("fields:\n  summary: Hi\n  assigneeEmail: ''\n  madeUpKey: zz")
        = .ok { summary := some (.str "Hi"), description := none,
                priority := none, assignee := none } ∧
      ({ summary := some (.str "Hi"), description := none,
         priority := none, assignee := none } : IssueFields).assignee = none :=
  ⟨by decide,
   (update_payload_policy.1
      ("fields:\n  summary: Hi\n  assigneeEmail: ''\n  madeUpKey: zz")
      [("fields", JsVal.obj [("summary", .str "Hi"), ("assigneeEmail", .str ""),
        ("madeUpKey", .str "zz")])]
      { summary := some (.str "Hi"), description := none, priority := none,
        assignee := none }
      (by decide) (by decide)).2.1 (by decide)⟩

/-! ## C6: request executor response contract -/

/-- C6: for every HTTP response: a 2xx status resolves with the parsed JSON
body, or the raw text body when JSON parsing fails, or an empty object when
the body is empty; and the request rejects if and only if the status is not
2xx (including an absent status), with an error message carrying the status
code and the raw response text verbatim.  Both API helpers follow the same
contract, differing only in the error prefix. -/
theorem request_executor_contract (parseJson : String → Option JsVal)
    (statusCode : Option Nat) (data : String) :
    ((∃ v, confluenceHandleResponse parseJson statusCode data = .ok v) ↔
       ∃ c, statusCode = some c ∧ 200 ≤ c ∧ c < 300) ∧
    (∀ c, statusCode = some c → 200 ≤ c → c < 300 → data = "" →
       confluenceHandleResponse parseJson statusCode data = .ok (.jsonVal (.obj []))) ∧
    (∀ c v, statusCode = some c → 200 ≤ c → c < 300 → data ≠ "" → parseJson data = some v →
       confluenceHandleResponse parseJson statusCode data = .ok (.jsonVal v)) ∧
    (∀ c, statusCode = some c → 200 ≤ c → c < 300 → data ≠ "" → parseJson data = none →
       confluenceHandleResponse parseJson statusCode data = .ok (.rawText data)) ∧
    (∀ c, statusCode = some c → ¬(200 ≤ c ∧ c < 300) →
       confluenceHandleResponse parseJson statusCode data =
         .error ("Confluence API error: " ++ toString c ++ " - " ++ data)) ∧
    (statusCode = none →
       confluenceHandleResponse parseJson statusCode data =
         .error ("Confluence API error: undefined - " ++ data)) ∧
    (∀ c, statusCode = some c → ¬(200 ≤ c ∧ c < 300) →
       jiraHandleResponse parseJson statusCode data =
         .error ("JIRA API error: " ++ toString c ++ " - " ++ data)) ∧
    ((∃ v, jiraHandleResponse parseJson statusCode data = .ok v) ↔
       ∃ c, statusCode = some c ∧ 200 ≤ c ∧ c < 300) := by
  refine ⟨?_, ?_, ?_, ?_, ?_, ?_, ?_, ?_⟩
  · cases statusCode with
    | none => simp [confluenceHandleResponse]
    | some c =>
      by_cases h : c ≥ 200 ∧ c < 300
      · simp [confluenceHandleResponse, if_pos h]
        exact h
      · simp [confluenceHandleResponse, if_neg h]
        omega
  · intro c hc h1 h2 hd
    subst hc hd
    simp [confluenceHandleResponse, if_pos (And.intro h1 h2)]
  · intro c v hc h1 h2 hd hp
    subst hc
    simp [confluenceHandleResponse, if_pos (And.intro h1 h2), hd, hp]
  · intro c hc h1 h2 hd hp
    subst hc
    simp [confluenceHandleResponse, if_pos (And.intro h1 h2), hd, hp]
  · intro c hc h
    subst hc
    simp [confluenceHandleResponse, if_neg h]
  · intro hc
    subst hc
    simp [confluenceHandleResponse]
  · intro c hc h
    subst hc
    simp [jiraHandleResponse, if_neg h]
  · cases statusCode with
    | none => simp [jiraHandleResponse]
    | some c =>
      by_cases h : c ≥ 200 ∧ c < 300
      · simp [jiraHandleResponse, if_pos h]
        exact h
      · simp [jiraHandleResponse, if_neg h]
        omega

theorem request_executor_contract_witness :
    confluenceHandleResponse (fun _ => none) (some 404) ("page not found") =
      .error ("Confluence API error: 404 - page not found") ∧
    confluenceHandleResponse (fun _ => some (.sc (.num 5))) (some 200) ("5") =
      .ok (.jsonVal (.sc (.num 5))) ∧
    confluenceHandleResponse (fun _ => none) (some 204) ("") =
      .ok (.jsonVal (.obj [])) ∧
    confluenceHandleResponse (fun _ => none) (some 200) ("not json") =
      .ok (.rawText ("not json")) ∧
    jiraHandleResponse (fun _ => none) (some 500) ("boom") =
      .error ("JIRA API error: 500 - boom") :=
  ⟨(request_executor_contract (fun _ => none) (some 404) ("page not found")).2.2.2.2.1
      404 rfl (by omega),
   (request_executor_contract (fun _ => some (.sc (.num 5))) (some 200) ("5")).2.2.1
      200 (.sc (.num 5)) rfl (by omega) (by omega) (by decide) rfl,
   (request_executor_contract (fun _ => none) (some 204) ("")).2.1
      204 rfl (by omega) (by omega) rfl,
   (request_executor_contract (fun _ => none) (some 200) ("not json")).2.2.2.1
      200 rfl (by omega) (by omega) (by decide) rfl,
   (request_executor_contract (fun _ => none) (some 500) ("boom")).2.2.2.2.2.2.1
      500 rfl (by omega)⟩

/-! ## C8: issue updates are version-free single attempts -/

/-- C8: an Issue-kind update performs exactly one update attempt, whose
payload is the extracted fields, with no create call, for every response
stream (in particular when the response carries a conflict-signature error);
and the payload is determined by the four known field keys alone (no version
number is read; the `IssueFields` payload carries no version component). -/
theorem issue_update_single_attempt (text : String) (pk : Option String)
    (w : JiraWorld) (issueData : PartialIssue) (fields : IssueFields) (kv : JsVal)
    (hparse : yamlToIssue text = .ok issueData)
    (hnot : ¬(issueData.id = some (.sc (.str "new")) ∨
              issueData.key = some (.sc (.str "NEW"))))
    (hk : issueData.key = some kv) (ht : kv.truthy = true)
    (hf : extractIssueFields text = .ok fields) :
    (saveToJiraCommand text pk w).2.2.updates = [⟨kv, fields⟩] ∧
    (saveToJiraCommand text pk w).2.2.creates = [] ∧
    (∀ g1 g2 : String → Option JsVal,
      fieldGet (g1 "fields") ("summary") = fieldGet (g2 "fields") ("summary") →
      fieldGet (g1 "fields") ("description") = fieldGet (g2 "fields") ("description") →
      fieldGet (g1 "fields") ("priority") = fieldGet (g2 "fields") ("priority") →
      fieldGet (g1 "fields") ("assigneeEmail") = fieldGet (g2 "fields") ("assigneeEmail") →
      buildIssueFields g1 = buildIssueFields g2) := by
  have hnot2 : ¬(issueData.id = some (.sc (.str "new")) ∨
      (some kv : Option JsVal) = some (.sc (.str "NEW"))) := by
    rw [hk] at hnot
    exact hnot
  have hrun : (saveToJiraCommand text pk w).2.2 =
      { updates := [⟨kv, fields⟩], creates := [] } := by
    obtain ⟨urs, crs⟩ := w
    unfold saveToJiraCommand callUpdateIssue
    rw [hparse, hf]
    simp only [hk, ht, if_neg hnot2]
    rcases urs with _ | ⟨r, rs⟩
    · rfl
    · cases r <;> rfl
  refine ⟨by rw [hrun], by rw [hrun], ?_⟩
  intro g1 g2 h1 h2 h3 h4
  unfold buildIssueFields
  rw [h1, h2, h3, h4]

theorem issue_update_single_attempt_witness :
    (saveToJiraCommand ("key: K-1\nfields:\n  summary: Hi") none
        { updateIssueResults := [.error ("JIRA API error: 409 - " ++
            "Version must be incremented oddly")], createIssueResults := [] }).2.2.updates =
      [⟨.sc (.str "K-1"),
        { summary := some (.str "Hi"), description := none, priority := none,
          assignee := none }⟩] :=
  (issue_update_single_attempt ("key: K-1\nfields:\n  summary: Hi") none
    { updateIssueResults := [.error ("JIRA API error: 409 - " ++
        "Version must be incremented oddly")], createIssueResults := [] }
    (buildPartialIssue (docGet [("key", .sc (.str "K-1")),
      ("fields", .obj [("summary", .str "Hi")])]))
    { summary := some (.str "Hi"), description := none, priority := none,
      assignee := none }
    (.sc (.str "K-1"))
    (by decide) (by decide) (by decide) (by decide) (by decide)).1

/-! ## Coordinator trace lemmas -/

theorem toolCatch_updates_front (pid title content e : String) (w : World) (t : Trace) :
    ∃ ex, (toolCatch pid title content e w t).2.2.updates = t.updates ++ ex := by
  unfold toolCatch callGetPage callUpdatePage
  obtain ⟨grs, urs, crs⟩ := w
  by_cases hc : containsSubstr e conflictSignature
  all_goals simp only [hc, if_true, if_false, Bool.false_eq_true]
  · rcases grs with _ | ⟨g, gs⟩
    · exact ⟨[], by simp⟩
    · cases g with
      | error e2 => exact ⟨[], by simp⟩
      | ok page =>
        rcases hv : page.version with _ | cv
        all_goals simp only [hv]
        · exact ⟨[], by simp⟩
        · by_cases hcv : cv ≠ 0
          · simp only [if_pos hcv]
            rcases urs with _ | ⟨u, us⟩
            · exact ⟨_, rfl⟩
            · cases u
              · exact ⟨_, rfl⟩
              · exact ⟨_, rfl⟩
          · simp only [if_neg hcv]
            exact ⟨[], by simp⟩
  · exact ⟨[], by simp⟩

theorem toolCatch_updates_head (pid title content e : String) (w : World) (t : Trace)
    (c : UpdateCall) (h : t.updates = [c]) :
    ((toolCatch pid title content e w t).2.2.updates).head? = some c := by
  obtain ⟨ex, hex⟩ := toolCatch_updates_front pid title content e w t
  rw [hex, h]
  rfl

theorem tool_first_update_provided (pid title content : String) (v : Int)
    (hv : v ≠ 0) (w : World) :
    ((updateConfluencePageTool pid title content (some v) w).2.2.updates).head? =
      some ⟨.sc (.str pid), .sc (.str title), content, .sc (.num (v + 1))⟩ := by
  unfold updateConfluencePageTool toolResolveVersion
  simp only [if_pos hv]
  show ((match callUpdatePage w Trace.empty (.sc (.str pid)) (.sc (.str title)) content
      (.sc (.num v)) with
    | (.ok _, w2, t2) => (createSuccessResult ("Page updated: " ++ title), w2, t2)
    | (.error e, w2, t2) => toolCatch pid title content e w2 t2).2.2.updates).head? = _
  unfold callUpdatePage
  obtain ⟨grs, urs, crs⟩ := w
  rcases urs with _ | ⟨u, us⟩
  · exact toolCatch_updates_head pid title content ("no response") _ _ _ rfl
  · cases u with
    | ok page => rfl
    | error e => exact toolCatch_updates_head pid title content e _ _ _ rfl

theorem tool_first_update_fetched (pid title content : String)
    (gp : ConfluencePage) (cv : Int) (hgv : gp.version = some cv) (hcv : cv ≠ 0)
    (grest : List (Except String ConfluencePage)) (urs : List (Except String ConfluencePage))
    (crs : List (Except String ConfluencePage)) :
    ((updateConfluencePageTool pid title content none
        ⟨.ok gp :: grest, urs, crs⟩).2.2.updates).head? =
      some ⟨.sc (.str pid), .sc (.str title), content, .sc (.num (cv + 1))⟩ := by
  unfold updateConfluencePageTool toolResolveVersion callGetPage
  simp only [hgv, if_pos hcv]
  show ((match callUpdatePage ⟨grest, urs, crs⟩ ⟨[], [], 1⟩ (.sc (.str pid)) (.sc (.str title))
      content (.sc (.num cv)) with
    | (.ok _, w2, t2) => (createSuccessResult ("Page updated: " ++ title), w2, t2)
    | (.error e, w2, t2) => toolCatch pid title content e w2 t2).2.2.updates).head? = _
  unfold callUpdatePage
  rcases urs with _ | ⟨u, us⟩
  · exact toolCatch_updates_head pid title content ("no response") _ _ _ rfl
  · cases u with
    | ok page => rfl
    | error e => exact toolCatch_updates_head pid title content e _ _ _ rfl

theorem saveToConfluence_updates_le_one (text : String) (w : World) :
    ((saveToConfluenceCommand text w).2.2.updates).length ≤ 1 := by
  unfold saveToConfluenceCommand callUpdatePage callCreatePage
  obtain ⟨grs, urs, crs⟩ := w
  rcases yamlToPage text with e | pd
  · simp [Trace.empty]
  · rcases extractPageContent text with e | ex
    · simp [Trace.empty]
    · by_cases hnew : pd.id = some (.sc (.str "new"))
      · simp only [if_pos hnew]
        rcases pd.space with _ | ⟨k, n⟩
        · simp [Trace.empty]
        · by_cases hk : k.truthy
          all_goals simp only [hk, if_true, if_false, Bool.false_eq_true]
          · rcases crs with _ | ⟨c, cs⟩
            · simp [Trace.empty]
            · cases c <;> simp [Trace.empty]
          · simp [Trace.empty]
      · simp only [if_neg hnew]
        rcases pd.id with _ | idv
        · simp [Trace.empty]
        · by_cases hi : idv.truthy
          all_goals simp only [hi, if_true, if_false, Bool.false_eq_true]
          · rcases urs with _ | ⟨u, us⟩
            · simp [Trace.empty]
            · cases u <;> simp [Trace.empty]
          · simp [Trace.empty]

/-! ## C2: version-conflict retry -/

/-- C2 counterexample: the claim does not hold of every page update — a save
through the `saveToConfluence` command whose update fails with the
version-conflict signature performs exactly one update attempt, fetches
nothing and surfaces the failure; no retry happens (the fresh version 5
available from the remote is never requested). -/
theorem conflict_retry_counterexample :
    saveToConfluenceCommand ("---\nid: p1\ntitle: T\nversion: 3\n---\n\nbody")
        { getPageResults := [.ok { id := "p1", type := "page", status := "current",
                                   title := "T", space := none, version := some 5,
                                   bodyStorage := some ("x"), bodyView := none }],
          updatePageResults := [.error ("Confluence API error: 409 - Version must be incremented")],
          createPageResults := [] } =
      (.errorNote ("Failed to save to Confluence: Error: " ++
          "Confluence API error: 409 - Version must be incremented"),
       { getPageResults := [.ok { id := "p1", type := "page", status := "current",
                                  title := "T", space := none, version := some 5,
                                  bodyStorage := some ("x"), bodyView := none }],
         updatePageResults := [], createPageResults := [] },
       { updates := [⟨.sc (.str "p1"), .sc (.str "T"), "body", .sc (.num 4)⟩],
         creates := [], gets := 0 }) := by
  decide

/-- C2 amended: the single retry lives in the `updateConfluencePage`
language-model tool: when its update fails with an error containing
`Version must be incremented`, it re-fetches the current remote version,
retries exactly once with that version (sending current + 1 on the wire),
flags auto-resolution in the success message when the retry succeeds and
fails after a second failure — exactly 2 update attempts and 1 fetch in
total.  The `saveToConfluence` editor command never retries: it performs at
most one update attempt per save. -/
theorem conflict_retry_once (pid title content : String) (v : Int) (hv : v ≠ 0)
    (e : String) (he : containsSubstr e conflictSignature = true)
    (gp : ConfluencePage) (cv : Int) (hgv : gp.version = some cv) (hcv : cv ≠ 0)
    (r : Except String ConfluencePage)
    (grest urest crs : List (Except String ConfluencePage)) :
    ((updateConfluencePageTool pid title content (some v)
        ⟨.ok gp :: grest, .error e :: r :: urest, crs⟩).2.2.updates =
      [⟨.sc (.str pid), .sc (.str title), content, .sc (.num (v + 1))⟩,
       ⟨.sc (.str pid), .sc (.str title), content, .sc (.num (cv + 1))⟩]) ∧
    ((updateConfluencePageTool pid title content (some v)
        ⟨.ok gp :: grest, .error e :: r :: urest, crs⟩).2.2.gets = 1) ∧
    (∀ p2, r = .ok p2 →
      (updateConfluencePageTool pid title content (some v)
          ⟨.ok gp :: grest, .error e :: r :: urest, crs⟩).1 =
        ⟨true, "Page updated: " ++ title ++ " (auto-resolved version conflict)"⟩) ∧
    (∀ e2, r = .error e2 →
      (updateConfluencePageTool pid title content (some v)
          ⟨.ok gp :: grest, .error e :: r :: urest, crs⟩).1 =
        ⟨false, ("Failed to update Confluence page " ++ pid ++ " after retry") ++
          ": " ++ e2⟩) ∧
    (∀ text w, ((saveToConfluenceCommand text w).2.2.updates).length ≤ 1) := by
  have hred : updateConfluencePageTool pid title content (some v)
      ⟨.ok gp :: grest, .error e :: r :: urest, crs⟩ =
      (match r with
       | .ok _ => (createSuccessResult ("Page updated: " ++ title ++
           " (auto-resolved version conflict)"),
           ⟨grest, urest, crs⟩,
           ⟨[⟨.sc (.str pid), .sc (.str title), content, .sc (.num (v + 1))⟩,
             ⟨.sc (.str pid), .sc (.str title), content, .sc (.num (cv + 1))⟩], [], 1⟩)
       | .error e2 => (handleToolError
           ("Failed to update Confluence page " ++ pid ++ " after retry") e2,
           ⟨grest, urest, crs⟩,
           ⟨[⟨.sc (.str pid), .sc (.str title), content, .sc (.num (v + 1))⟩,
             ⟨.sc (.str pid), .sc (.str title), content, .sc (.num (cv + 1))⟩], [], 1⟩)) := by
    unfold updateConfluencePageTool toolResolveVersion callUpdatePage toolCatch callGetPage
    simp only [if_pos hv, he, if_true, hgv, if_pos hcv]
    cases r <;> rfl
  refine ⟨?_, ?_, ?_, ?_, saveToConfluence_updates_le_one⟩
  · rw [hred]; cases r <;> rfl
  · rw [hred]; cases r <;> rfl
  · intro p2 hp2
    subst hp2
    rw [hred]
    rfl
  · intro e2 he2
    subst he2
    rw [hred]
    rfl

theorem conflict_retry_once_witness :
    containsSubstr ("Confluence API error: 409 - Version must be incremented")
        conflictSignature = true ∧
      (updateConfluencePageTool ("p1") ("T") ("body") (some 3)
          ⟨[.ok { id := "p1", type := "page", status := "current", title := "T",
                  space := none, version := some 5, bodyStorage := some ("x"),
                  bodyView := none }],
           [.error ("Confluence API error: 409 - Version must be incremented"),
            .ok { id := "p1", type := "page", status := "current", title := "T",
                  space := none, version := some 6, bodyStorage := some ("x"),
                  bodyView := none }],
           []⟩).2.2.updates =
        [⟨.sc (.str "p1"), .sc (.str "T"), "body", .sc (.num 4)⟩,
         ⟨.sc (.str "p1"), .sc (.str "T"), "body", .sc (.num 6)⟩] :=
  ⟨by decide,
   (conflict_retry_once ("p1") ("T") ("body") 3 (by decide)
      ("Confluence API error: 409 - Version must be incremented") (by decide)
      { id := "p1", type := "page", status := "current", title := "T",
        space := none, version := some 5, bodyStorage := some ("x"), bodyView := none }
      5 rfl (by decide)
      (.ok { id := "p1", type := "page", status := "current", title := "T",
             space := none, version := some 6, bodyStorage := some ("x"),
             bodyView := none })
      [] [] []).1⟩

/-! ## C3: version sent on update -/

/-- C3 counterexample: a save through the `saveToConfluence` command whose
preamble carries no version does not fetch the current remote version — it
defaults the version to 1 and sends 2 on the wire, although the remote
current version (here 7) was available for fetching. -/
theorem version_sent_counterexample :
    (saveToConfluenceCommand ("---\nid: p1\ntitle: T\n---\n\nbody")
        { getPageResults := [.ok { id := "p1", type := "page", status := "current",
                                   title := "T", space := none, version := some 7,
                                   bodyStorage := some ("x"), bodyView := none }],
          updatePageResults := [.ok { id := "p1", type := "page", status := "current",
                                      title := "T", space := none, version := some 8,
                                      bodyStorage := some ("body"), bodyView := none }],
          createPageResults := [] }).2.2 =
      { updates := [⟨.sc (.str "p1"), .sc (.str "T"), "body", .sc (.num 2)⟩],
        creates := [], gets := 0 } ∧
      (2 : Int) ≠ 7 + 1 := by
  exact ⟨by decide, by decide⟩

/-- C3 amended: the version sent on the wire is always (chosen version) + 1,
where the chosen version is: for the `updateConfluencePage` tool, the
caller-provided version when non-zero, otherwise the freshly fetched current
remote version; for the `saveToConfluence` command, the version embedded in
the parsed preamble when present and non-zero, otherwise the constant 1 —
the command never fetches the remote version. -/
theorem version_sent_plus_one (pid title content : String) :
    (∀ (v : Int), v ≠ 0 → ∀ w,
      ((updateConfluencePageTool pid title content (some v) w).2.2.updates).head? =
        some ⟨.sc (.str pid), .sc (.str title), content, .sc (.num (v + 1))⟩) ∧
    (∀ (gp : ConfluencePage) (cv : Int), gp.version = some cv → cv ≠ 0 →
      ∀ grest urs crs,
      ((updateConfluencePageTool pid title content none
          ⟨.ok gp :: grest, urs, crs⟩).2.2.updates).head? =
        some ⟨.sc (.str pid), .sc (.str title), content, .sc (.num (cv + 1))⟩) ∧
    (∀ (text : String) (pd : PartialPage) (ex : ExtractedPage) (idv : JsVal) (k : Int) (w : World),
      yamlToPage text = .ok pd →
      pd.id = some idv → idv.truthy = true → idv ≠ .sc (.str "new") →
      extractPageContent text = .ok ex → ex.version = .sc (.num k) →
      (saveToConfluenceCommand text w).2.2.updates =
        [⟨idv, ex.title, ex.content, .sc (.num (k + 1))⟩] ∧
      (saveToConfluenceCommand text w).2.2.gets = 0) := by
  refine ⟨fun v hv w => tool_first_update_provided pid title content v hv w,
    fun gp cv hgv hcv grest urs crs =>
      tool_first_update_fetched pid title content gp cv hgv hcv grest urs crs,
    ?_⟩
  intro text pd ex idv k w hpage hid ht hnew hex hver
  have hidnew : ¬((some idv : Option JsVal) = some (.sc (.str "new"))) := by
    intro hcon
    cases hcon
    exact hnew rfl
  have hrun : (saveToConfluenceCommand text w).2.2 =
      { updates := [⟨idv, ex.title, ex.content, .sc (.num (k + 1))⟩],
        creates := [], gets := 0 } := by
    obtain ⟨grs, urs, crs⟩ := w
    unfold saveToConfluenceCommand callUpdatePage
    rw [hpage, hex]
    simp only [hid, ht, if_neg hidnew, if_true, hver]
    rcases urs with _ | ⟨u, us⟩
    · rfl
    · cases u <;> rfl
  exact ⟨by rw [hrun], by rw [hrun]⟩

theorem version_sent_plus_one_witness :
    ((updateConfluencePageTool ("p1") ("T") ("body") (some 3)
        ⟨[], [.ok { id := "p1", type := "page", status := "current", title := "T",
                    space := none, version := some 4, bodyStorage := some ("body"),
                    bodyView := none }],
         []⟩).2.2.updates).head? =
      some ⟨.sc (.str "p1"), .sc (.str "T"), "body", .sc (.num 4)⟩ ∧
    (saveToConfluenceCommand ("---\nid: p1\ntitle: T\nversion: 3\n---\n\nbody")
        { getPageResults := [],
          updatePageResults := [.ok { id := "p1", type := "page", status := "current",
                                      title := "T", space := none, version := some 4,
                                      bodyStorage := some ("body"), bodyView := none }],
          createPageResults := [] }).2.2.updates =
      [⟨.sc (.str "p1"), .sc (.str "T"), "body", .sc (.num 4)⟩] :=
  ⟨(version_sent_plus_one ("p1") ("T") ("body")).1 3 (by decide) _,
   ((version_sent_plus_one ("p1") ("T") ("body")).2.2
      ("---\nid: p1\ntitle: T\nversion: 3\n---\n\nbody")
      (buildPartialPage (docGet [("id", .sc (.str "p1")), ("title", .sc (.str "T")),
        ("version", .sc (.num 3))]) ("body"))
      { title := .sc (.str "T"), content := "body", version := .sc (.num 3) }
      (.sc (.str "p1")) 3
      { getPageResults := [],
        updatePageResults := [.ok { id := "p1", type := "page", status := "current",
                                    title := "T", space := none, version := some 4,
                                    bodyStorage := some ("body"), bodyView := none }],
        createPageResults := [] }
      (by decide) (by decide) (by decide) (by decide) (by decide) (by decide)).1⟩

/-! ## Line and character level lemmas for the round trip -/

theorem mk_data_eq (s : String) : String.mk s.data = s := rfl

theorem not_mem_of_mem_splitOn {α : Type} [DecidableEq α] (x : α) (cs : List α) :
    ∀ l ∈ cs.splitOn x, x ∉ l := by
  induction cs with
  | nil =>
    intro l hl
    simp only [List.splitOn, List.splitOnP_nil, List.mem_singleton] at hl
    simp [hl]
  | cons c t ih =>
    intro l hl
    simp only [List.splitOn] at hl ih
    rw [List.splitOnP_cons] at hl
    by_cases hc : c = x
    · subst hc
      simp only [beq_self_eq_true, if_true, List.mem_cons] at hl
      rcases hl with hl | hl
      · simp [hl]
      · exact ih l hl
    · have hcx : (c == x) = false := by simp [hc]
      rw [hcx] at hl
      simp only [Bool.false_eq_true, if_false] at hl
      rcases hg : t.splitOnP (· == x) with _ | ⟨g, gs⟩
      · exact absurd hg (List.splitOnP_ne_nil _ t)
      · rw [hg] at hl
        simp only [List.modifyHead, List.mem_cons] at hl
        rcases hl with hl | hl
        · subst hl
          intro hmem
          rcases List.mem_cons.1 hmem with h1 | h1
          · exact hc h1.symm
          · exact ih g (by rw [hg]; exact List.mem_cons_self g gs) h1
        · exact ih l (by rw [hg]; exact List.mem_cons_of_mem g hl)

theorem strLines_nl_free (s : String) : ∀ l ∈ strLines s, nlChar ∉ l.data := by
  intro l hl
  unfold strLines at hl
  rcases List.mem_map.1 hl with ⟨cs, hcs, hm⟩
  rw [← hm]
  exact not_mem_of_mem_splitOn nlChar s.data cs hcs

theorem map_data_map_mk (css : List (List Char)) :
    (css.map String.mk).map String.data = css := by
  rw [List.map_map]
  exact List.map_id css

theorem joinLines_strLines (s : String) : joinLines (strLines s) = s := by
  unfold joinLines strLines
  rw [map_data_map_mk, List.intercalate_splitOn]

theorem strLines_joinLines (ls : List String) (hne : ls ≠ [])
    (h : ∀ l ∈ ls, nlChar ∉ l.data) : strLines (joinLines ls) = ls := by
  unfold joinLines strLines
  have hd : (String.mk (List.intercalate [nlChar] (ls.map String.data))).data
      = List.intercalate [nlChar] (ls.map String.data) := rfl
  rw [hd, List.splitOn_intercalate]
  · rw [List.map_map]
    have hmk : ∀ t : String, String.mk t.data = t := fun t => rfl
    calc (ls.map fun t => String.mk t.data) = ls.map id := by
          apply List.map_congr_left
          intro t _
          exact hmk t
      _ = ls := List.map_id ls
  · intro l hl
    rcases List.mem_map.1 hl with ⟨t, ht, hm⟩
    rw [← hm]
    exact h t ht
  · simp [hne]

theorem splitOn_marker_append (xs ys : List String) (h : ∀ l ∈ xs, l ≠ "---") :
    (xs ++ "---" :: ys).splitOn ("---") = xs :: ys.splitOn ("---") := by
  show (xs ++ "---" :: ys).splitOnP (· == "---") = xs :: ys.splitOnP (· == "---")
  apply List.splitOnP_first
  · intro l hl
    simpa using h l hl
  · simp

theorem line_head (pre v : String) (c : Char) (cs : List Char)
    (hpre : pre.data = c :: cs) : ((pre ++ v).data).head? = some c := by
  rw [String.data_append, hpre]
  rfl

theorem isIndented_append_false (pre v : String) (c : Char) (cs : List Char)
    (hpre : pre.data = c :: cs) (hc : c ≠ ' ') : isIndented (pre ++ v) = false := by
  unfold isIndented
  rw [line_head pre v c cs hpre]
  simp [hc]

theorem isBlank_append_false (pre v : String) (c : Char) (cs : List Char)
    (hpre : pre.data = c :: cs) (hc : isJsWs c = false) : isBlank (pre ++ v) = false := by
  unfold isBlank
  rw [String.data_append, hpre]
  simp [hc]

theorem ne_marker_of_head (pre v : String) (c : Char) (cs : List Char)
    (hpre : pre.data = c :: cs) (hc : c ≠ '-') : (pre ++ v) ≠ "---" := by
  intro he
  have hd := congrArg String.data he
  rw [String.data_append, hpre] at hd
  have hh : c = '-' := by
    have := congrArg List.head? hd
    simpa using this
  exact hc hh

theorem nl_free_append (s t : String) (hs : nlChar ∉ s.data) (ht : nlChar ∉ t.data) :
    nlChar ∉ (s ++ t).data := by
  rw [String.data_append]
  simp only [List.mem_append]
  rintro (h | h)
  · exact hs h
  · exact ht h

theorem simpleStr_char (y : String) (h : simpleStr y = true) :
    ∀ c ∈ y.data, 32 ≤ c.toNat ∧ c.toNat ≠ 39 := by
  unfold simpleStr at h
  rw [List.all_eq_true] at h
  intro c hc
  have := h c hc
  simpa using this

theorem simpleStr_nl_free (y : String) (h : simpleStr y = true) : nlChar ∉ y.data := by
  intro hm
  have := simpleStr_char y h nlChar hm
  have h10 : nlChar.toNat = 10 := rfl
  omega

theorem dumpStr_nl_free (y : String) (h : simpleStr y = true) :
    nlChar ∉ (dumpStr y).data := by
  unfold dumpStr
  by_cases hp : plainSafe y
  · rw [if_pos hp]
    exact simpleStr_nl_free y h
  · rw [if_neg hp]
    intro hm
    have hd : (String.mk (quoteChar :: y.data ++ [quoteChar])).data
        = quoteChar :: y.data ++ [quoteChar] := rfl
    rw [hd] at hm
    have hq : nlChar ≠ quoteChar := by decide
    rcases List.mem_cons.1 hm with h1 | h1
    · exact hq h1
    · rcases List.mem_append.1 h1 with h2 | h2
      · exact simpleStr_nl_free y h h2
      · exact hq (List.mem_singleton.1 h2)

theorem dropWhile_eq_self_of_head (p : Char → Bool) (cs : List Char)
    (h : ∀ c, cs.head? = some c → p c = false) : cs.dropWhile p = cs := by
  cases cs with
  | nil => rfl
  | cons c t =>
    rw [List.dropWhile_cons, h c rfl]
    simp

theorem trimChars_eq_self (cs : List Char)
    (h1 : ∀ c, cs.head? = some c → isJsWs c = false)
    (h2 : ∀ c, cs.getLast? = some c → isJsWs c = false) : trimChars cs = cs := by
  unfold trimChars
  rw [dropWhile_eq_self_of_head _ _ h1]
  rw [dropWhile_eq_self_of_head _ _ ?hr]
  · exact List.reverse_reverse cs
  case hr =>
    intro c hc
    apply h2
    rwa [List.head?_reverse] at hc

theorem digitChar_toNat (k : Nat) :
    48 ≤ (digitChar k).toNat ∧ (digitChar k).toNat ≤ 57 := by
  unfold digitChar
  split <;> decide

theorem natToCharsCore_chars (fuel : Nat) :
    ∀ (n : Nat) (acc : List Char),
      (∀ c ∈ acc, 48 ≤ c.toNat ∧ c.toNat ≤ 57) →
      ∀ c ∈ natToCharsCore fuel n acc, 48 ≤ c.toNat ∧ c.toNat ≤ 57 := by
  induction fuel with
  | zero => intro n acc hacc c hc; exact hacc c hc
  | succ f ih =>
    intro n acc hacc c hc
    unfold natToCharsCore at hc
    by_cases hn : n < 10
    · rw [if_pos hn] at hc
      rcases List.mem_cons.1 hc with h1 | h1
      · rw [h1]; exact digitChar_toNat (n % 10)
      · exact hacc c h1
    · rw [if_neg hn] at hc
      refine ih (n / 10) (digitChar (n % 10) :: acc) ?_ c hc
      intro d hd
      rcases List.mem_cons.1 hd with h1 | h1
      · rw [h1]; exact digitChar_toNat (n % 10)
      · exact hacc d h1

theorem natToCharsCore_ne_nil (fuel : Nat) :
    ∀ (n : Nat) (acc : List Char), acc ≠ [] ∨ fuel ≥ 1 →
      natToCharsCore fuel n acc ≠ [] := by
  induction fuel with
  | zero =>
    intro n acc h
    rcases h with h | h
    · exact h
    · omega
  | succ f ih =>
    intro n acc _
    unfold natToCharsCore
    by_cases hn : n < 10
    · rw [if_pos hn]; simp
    · rw [if_neg hn]
      exact ih (n / 10) (digitChar (n % 10) :: acc) (Or.inl (by simp))

theorem intToChars_chars (n : Int) :
    ∀ c ∈ intToChars n, c.toNat = 45 ∨ (48 ≤ c.toNat ∧ c.toNat ≤ 57) := by
  intro c hc
  cases n with
  | ofNat m =>
    unfold intToChars natToChars at hc
    exact Or.inr (natToCharsCore_chars (m + 1) m [] (by simp) c hc)
  | negSucc m =>
    unfold intToChars natToChars at hc
    rcases List.mem_cons.1 hc with h1 | h1
    · rw [h1]; left; rfl
    · exact Or.inr (natToCharsCore_chars (m + 1 + 1) (m + 1) [] (by simp) c h1)

theorem intToChars_ne_nil (n : Int) : intToChars n ≠ [] := by
  cases n with
  | ofNat m =>
    unfold intToChars natToChars
    exact natToCharsCore_ne_nil (m + 1) m [] (Or.inr (by omega))
  | negSucc m => simp [intToChars]

theorem intToStr_nl_free (n : Int) : nlChar ∉ (intToStr n).data := by
  intro hm
  have hd : (intToStr n).data = intToChars n := rfl
  rw [hd] at hm
  have := intToChars_chars n nlChar hm
  have h10 : nlChar.toNat = 10 := rfl
  omega

theorem intToStr_not_blank (n : Int) : isBlank (intToStr n) = false := by
  unfold isBlank
  have hd : (intToStr n).data = intToChars n := rfl
  rw [hd]
  rcases hch : intToChars n with _ | ⟨c, t⟩
  · exact absurd hch (intToChars_ne_nil n)
  · have hc := intToChars_chars n c (by rw [hch]; exact List.mem_cons_self c t)
    have hcw : isJsWs c = false := by
      unfold isJsWs
      simp only [decide_eq_false_iff_not]
      push_neg
      omega
    simp [hcw]

theorem plainSafe_spec (y : String) (h : plainSafe y = true) :
    (∃ c cs, y.data = c :: cs ∧ plainFirst c = true) ∧
    (∀ c ∈ y.data, plainChar c = true) ∧
    (∀ c, y.data.getLast? = some c → c.toNat ≠ 32) ∧
    y ≠ "true" ∧ y ≠ "false" ∧ y ≠ "null" := by
  unfold plainSafe at h
  rcases hd : y.data with _ | ⟨c, cs⟩
  · rw [hd] at h
    cases h
  · rw [hd] at h
    simp only [Bool.and_eq_true, List.all_eq_true, Bool.not_eq_true',
      beq_eq_false_iff_ne, ne_eq, bne_iff_ne] at h
    obtain ⟨⟨⟨⟨⟨hf, hall⟩, hlast⟩, ht⟩, hfa⟩, hn⟩ := h
    refine ⟨⟨c, cs, rfl, hf⟩, ?_, ?_, ht, hfa, hn⟩
    · intro d hdm
      exact hall d hdm
    · intro d hdl
      rw [hdl] at hlast
      simpa using hlast

theorem plainFirst_facts (c : Char) (h : plainFirst c = true) :
    isJsWs c = false ∧ c ≠ quoteChar ∧ isDigitC c = false ∧ c ≠ '-' ∧ c ≠ ' ' ∧
      c ≠ ':' ∧ c ≠ '-' := by
  unfold plainFirst at h
  simp only [decide_eq_true_eq] at h
  refine ⟨?_, ?_, ?_, ?_, ?_, ?_, ?_⟩
  · unfold isJsWs
    simp only [decide_eq_false_iff_not]
    push_neg
    omega
  · intro he
    rw [he] at h
    revert h
    decide
  · unfold isDigitC
    simp only [Bool.and_eq_false_iff, decide_eq_false_iff_not]
    omega
  · intro he
    rw [he] at h
    revert h
    decide
  · intro he
    rw [he] at h
    revert h
    decide
  · intro he
    rw [he] at h
    revert h
    decide
  · intro he
    rw [he] at h
    revert h
    decide

theorem plainChar_last_not_ws (c : Char) (hp : plainChar c = true)
    (h32 : c.toNat ≠ 32) : isJsWs c = false := by
  unfold plainChar plainFirst at hp
  simp only [Bool.or_eq_true, decide_eq_true_eq] at hp
  unfold isJsWs
  simp only [decide_eq_false_iff_not]
  push_neg
  omega

theorem trimChars_plainSafe (y : String) (hp : plainSafe y = true) :
    trimChars y.data = y.data := by
  obtain ⟨⟨c, cs, hd, hf⟩, hall, hlast, _⟩ := plainSafe_spec y hp
  apply trimChars_eq_self
  · intro d hdh
    rw [hd] at hdh
    cases hdh
    exact (plainFirst_facts c hf).1
  · intro d hdl
    have hmem : d ∈ y.data := List.mem_of_getLast?_eq_some hdl
    exact plainChar_last_not_ws d (hall d hmem) (hlast d hdl)

theorem dumpStr_not_blank (y : String) : isBlank (dumpStr y) = false := by
  unfold dumpStr
  by_cases hp : plainSafe y
  · rw [if_pos hp]
    obtain ⟨⟨c, cs, hd, hf⟩, _, _, _⟩ := plainSafe_spec y hp
    unfold isBlank
    rw [hd]
    simp [(plainFirst_facts c hf).1]
  · rw [if_neg hp]
    unfold isBlank
    have hd : (String.mk (quoteChar :: y.data ++ [quoteChar])).data
        = quoteChar :: (y.data ++ [quoteChar]) := rfl
    rw [hd]
    have hq : isJsWs quoteChar = false := by decide
    simp [hq]

theorem char_eq_of_toNat (c d : Char) (h : c.toNat = d.toNat) : c = d := by
  apply Char.ext
  exact UInt32.toNat.inj h

/-- Unfolding of `parseScalar` once the trimmed value is known. -/
theorem parseScalar_cons (s : String) (c : Char) (rest : List Char)
    (h : trimChars s.data = c :: rest) :
    parseScalar s =
      if c = quoteChar ∧ rest ≠ [] ∧ rest.getLast? = some quoteChar then
        .str (String.mk rest.dropLast)
      else if String.mk (c :: rest) = "~" ∨ String.mk (c :: rest) = "null" then .null
      else if String.mk (c :: rest) = "true" then .bool true
      else if String.mk (c :: rest) = "false" then .bool false
      else if isIntLit (c :: rest) then .num (charsToInt (c :: rest))
      else .str (String.mk (c :: rest)) := by
  unfold parseScalar
  rw [h]

theorem parseScalar_dumpStr (y : String) :
    parseScalar (dumpStr y) = .str y := by
  by_cases hp : plainSafe y
  · have hdump : dumpStr y = y := by unfold dumpStr; rw [if_pos hp]
    rw [hdump]
    obtain ⟨⟨c, cs, hd, hf⟩, hall, hlast, htr, hfa, hnu⟩ := plainSafe_spec y hp
    obtain ⟨hws, hquote, hdig, hdash, hsp, hcolon, _⟩ := plainFirst_facts c hf
    have htc : trimChars y.data = c :: cs := by
      rw [trimChars_plainSafe y hp, hd]
    rw [parseScalar_cons y c cs htc]
    have hmk : String.mk (c :: cs) = y := by rw [← hd]
    rw [if_neg (fun hcon => hquote hcon.1)]
    rw [if_neg ?hnull, if_neg ?htrue, if_neg ?hfalse, if_neg ?hint]
    · rw [hmk]
    case hnull =>
      rw [hmk]
      rintro (he | he)
      · rw [he] at hp
        revert hp
        decide
      · exact hnu he
    case htrue =>
      rw [hmk]
      exact htr
    case hfalse =>
      rw [hmk]
      exact hfa
    case hint =>
      unfold isIntLit
      show ¬((if c.toNat = 45 then !cs.isEmpty && cs.all isDigitC
          else (c :: cs).all isDigitC) = true)
      rw [if_neg ?hdash45]
      · simp only [List.all_cons, Bool.and_eq_true]
        rintro ⟨hc, -⟩
        rw [hdig] at hc
        cases hc
      case hdash45 =>
        intro h45
        exact hdash (char_eq_of_toNat c ('-') h45)
  · have hdump : dumpStr y = String.mk (quoteChar :: y.data ++ [quoteChar]) := by
      unfold dumpStr
      rw [if_neg hp]
    rw [hdump]
    have hdata : (String.mk (quoteChar :: y.data ++ [quoteChar])).data
        = quoteChar :: (y.data ++ [quoteChar]) := rfl
    have hglast : (y.data ++ [quoteChar]).getLast? = some quoteChar :=
      List.getLast?_concat _
    have htrim : trimChars (String.mk (quoteChar :: y.data ++ [quoteChar])).data
        = quoteChar :: (y.data ++ [quoteChar]) := by
      rw [hdata]
      apply trimChars_eq_self
      · intro d hdh
        cases hdh
        decide
      · intro d hdl
        have hgl : (quoteChar :: (y.data ++ [quoteChar])).getLast? = some quoteChar := by
          rw [show quoteChar :: (y.data ++ [quoteChar])
              = (quoteChar :: y.data) ++ [quoteChar] from rfl]
          exact List.getLast?_concat _
        rw [hgl] at hdl
        cases hdl
        decide
    rw [parseScalar_cons _ quoteChar (y.data ++ [quoteChar]) htrim]
    rw [if_pos ⟨rfl, by simp, hglast⟩]
    rw [List.dropLast_concat]

theorem findColon_front (kcs : List Char) (v : List Char)
    (h : ∀ c ∈ kcs, c ≠ ':') :
    findColon (kcs ++ ':' :: ' ' :: v) = some (kcs, v) := by
  induction kcs with
  | nil => rfl
  | cons k t ih =>
    show findColon (k :: (t ++ ':' :: ' ' :: v)) = _
    unfold findColon
    rw [if_neg (h k (List.mem_cons_self k t))]
    rw [ih (fun c hc => h c (List.mem_cons_of_mem k hc))]
    rfl

theorem splitEntry_front (pre v : String) (kcs : List Char)
    (hpre : pre.data = kcs ++ [':', ' ']) (h : ∀ c ∈ kcs, c ≠ ':') :
    splitEntry (pre ++ v) = some (String.mk kcs, v) := by
  unfold splitEntry
  rw [String.data_append, hpre, List.append_assoc]
  show (findColon (kcs ++ ':' :: ' ' :: v.data)).map _ = _
  rw [findColon_front kcs v.data h]
  rfl

theorem groupLines_top (ls : List String) (h : ∀ l ∈ ls, isIndented l = false) :
    groupLines ls = ([], ls.map fun l => (l, [])) := by
  induction ls with
  | nil => rfl
  | cons l t ih =>
    unfold groupLines
    rw [ih (fun x hx => h x (List.mem_cons_of_mem l hx))]
    simp [h l (List.mem_cons_self l t)]

theorem parseMapGroups_scalar_cons (l : String) (rest : List (String × List String))
    (k v : String) (hs : splitEntry l = some (k, v)) (hb : isBlank v = false) :
    parseMapGroups ((l, []) :: rest) =
      match parseMapGroups rest with
      | .error e => .error e
      | .ok m =>
        if (m.lookup k).isSome then .error ("duplicated mapping key")
        else .ok ((k, .sc (parseScalar v)) :: m) := by
  simp only [parseMapGroups, hs]
  cases hpm : parseMapGroups rest with
  | error e => rfl
  | ok m =>
    show (if (m.lookup k).isSome then Except.error ("duplicated mapping key")
      else if isBlank v then _ else _) = _
    by_cases hl : (m.lookup k).isSome
    · simp [hl]
    · simp [hl, hb]

theorem lookup_cons_of_ne {β : Type} (k k' : String) (v : β) (m : List (String × β))
    (h : (k == k') = false) : List.lookup k ((k', v) :: m) = List.lookup k m := by
  simp [List.lookup, h]

theorem lookup_cons_self {β : Type} (k : String) (v : β) (m : List (String × β)) :
    List.lookup k ((k, v) :: m) = some v := by
  simp [List.lookup]

/-- The frontmatter block of `pageToYaml` loads as the expected mapping. -/
theorem loadYaml_pageFm (p : ConfluencePage) :
    loadYamlLines (pageFrontmatterLines p) = .mapDoc
      [("entityType", .sc (.str "page")),
       ("id", .sc (.str p.id)),
       ("title", .sc (.str p.title)),
       ("type", .sc (.str p.type)),
       ("status", .sc (.str p.status)),
       ("spaceKey", .sc (.str (pageSpaceKey p))),
       ("spaceName", .sc (.str (pageSpaceName p))),
       ("version", .sc (parseScalar (intToStr (pageVersionNum p))))] := by
  have hs2 : splitEntry ("id: " ++ dumpStr p.id) = some ("id", dumpStr p.id) :=
    splitEntry_front _ _ (['i', 'd']) rfl (by decide)
  have hs3 : splitEntry ("title: " ++ dumpStr p.title) = some ("title", dumpStr p.title) :=
    splitEntry_front _ _ (['t', 'i', 't', 'l', 'e']) rfl (by decide)
  have hs4 : splitEntry ("type: " ++ dumpStr p.type) = some ("type", dumpStr p.type) :=
    splitEntry_front _ _ (['t', 'y', 'p', 'e']) rfl (by decide)
  have hs5 : splitEntry ("status: " ++ dumpStr p.status) = some ("status", dumpStr p.status) :=
    splitEntry_front _ _ (['s', 't', 'a', 't', 'u', 's']) rfl (by decide)
  have hs6 : splitEntry ("spaceKey: " ++ dumpStr (pageSpaceKey p))
      = some ("spaceKey", dumpStr (pageSpaceKey p)) :=
    splitEntry_front _ _ (['s', 'p', 'a', 'c', 'e', 'K', 'e', 'y']) rfl (by decide)
  have hs7 : splitEntry ("spaceName: " ++ dumpStr (pageSpaceName p))
      = some ("spaceName", dumpStr (pageSpaceName p)) :=
    splitEntry_front _ _ (['s', 'p', 'a', 'c', 'e', 'N', 'a', 'm', 'e']) rfl (by decide)
  have hs8 : splitEntry ("version: " ++ intToStr (pageVersionNum p))
      = some ("version", intToStr (pageVersionNum p)) :=
    splitEntry_front _ _ (['v', 'e', 'r', 's', 'i', 'o', 'n']) rfl (by decide)
  have hb1 : isBlank ("entityType: page") = false := by decide
  have hb2 : isBlank ("id: " ++ dumpStr p.id) = false :=
    isBlank_append_false _ _ 'i' _ rfl (by decide)
  have hb3 : isBlank ("title: " ++ dumpStr p.title) = false :=
    isBlank_append_false _ _ 't' _ rfl (by decide)
  have hb4 : isBlank ("type: " ++ dumpStr p.type) = false :=
    isBlank_append_false _ _ 't' _ rfl (by decide)
  have hb5 : isBlank ("status: " ++ dumpStr p.status) = false :=
    isBlank_append_false _ _ 's' _ rfl (by decide)
  have hb6 : isBlank ("spaceKey: " ++ dumpStr (pageSpaceKey p)) = false :=
    isBlank_append_false _ _ 's' _ rfl (by decide)
  have hb7 : isBlank ("spaceName: " ++ dumpStr (pageSpaceName p)) = false :=
    isBlank_append_false _ _ 's' _ rfl (by decide)
  have hb8 : isBlank ("version: " ++ intToStr (pageVersionNum p)) = false :=
    isBlank_append_false _ _ 'v' _ rfl (by decide)
  have hi1 : isIndented ("entityType: page") = false := by decide
  have hi2 : isIndented ("id: " ++ dumpStr p.id) = false :=
    isIndented_append_false _ _ 'i' _ rfl (by decide)
  have hi3 : isIndented ("title: " ++ dumpStr p.title) = false :=
    isIndented_append_false _ _ 't' _ rfl (by decide)
  have hi4 : isIndented ("type: " ++ dumpStr p.type) = false :=
    isIndented_append_false _ _ 't' _ rfl (by decide)
  have hi5 : isIndented ("status: " ++ dumpStr p.status) = false :=
    isIndented_append_false _ _ 's' _ rfl (by decide)
  have hi6 : isIndented ("spaceKey: " ++ dumpStr (pageSpaceKey p)) = false :=
    isIndented_append_false _ _ 's' _ rfl (by decide)
  have hi7 : isIndented ("spaceName: " ++ dumpStr (pageSpaceName p)) = false :=
    isIndented_append_false _ _ 's' _ rfl (by decide)
  have hi8 : isIndented ("version: " ++ intToStr (pageVersionNum p)) = false :=
    isIndented_append_false _ _ 'v' _ rfl (by decide)
  have hvb2 : isBlank (dumpStr p.id) = false := dumpStr_not_blank _
  have hvb3 : isBlank (dumpStr p.title) = false := dumpStr_not_blank _
  have hvb4 : isBlank (dumpStr p.type) = false := dumpStr_not_blank _
  have hvb5 : isBlank (dumpStr p.status) = false := dumpStr_not_blank _
  have hvb6 : isBlank (dumpStr (pageSpaceKey p)) = false := dumpStr_not_blank _
  have hvb7 : isBlank (dumpStr (pageSpaceName p)) = false := dumpStr_not_blank _
  have hvb8 : isBlank (intToStr (pageVersionNum p)) = false := intToStr_not_blank _
  have hvb1 : isBlank ("page") = false := by decide
  have hs1 : splitEntry ("entityType: page") = some ("entityType", "page") := rfl
  unfold pageFrontmatterLines loadYamlLines
  rw [show ["entityType: page",
      "id: " ++ dumpStr p.id,
      "title: " ++ dumpStr p.title,
      "type: " ++ dumpStr p.type,
      "status: " ++ dumpStr p.status,
      "spaceKey: " ++ dumpStr (pageSpaceKey p),
      "spaceName: " ++ dumpStr (pageSpaceName p),
      "version: " ++ intToStr (pageVersionNum p)].filter (fun l => !(isBlank l))
    = ["entityType: page",
      "id: " ++ dumpStr p.id,
      "title: " ++ dumpStr p.title,
      "type: " ++ dumpStr p.type,
      "status: " ++ dumpStr p.status,
      "spaceKey: " ++ dumpStr (pageSpaceKey p),
      "spaceName: " ++ dumpStr (pageSpaceName p),
      "version: " ++ intToStr (pageVersionNum p)] from by
    simp [List.filter_cons, hb1, hb2, hb3, hb4, hb5, hb6, hb7, hb8]]
  simp only [loadYamlFiltered]
  rw [show groupLines ["entityType: page",
      "id: " ++ dumpStr p.id,
      "title: " ++ dumpStr p.title,
      "type: " ++ dumpStr p.type,
      "status: " ++ dumpStr p.status,
      "spaceKey: " ++ dumpStr (pageSpaceKey p),
      "spaceName: " ++ dumpStr (pageSpaceName p),
      "version: " ++ intToStr (pageVersionNum p)]
    = ([], [("entityType: page", []),
        ("id: " ++ dumpStr p.id, []),
        ("title: " ++ dumpStr p.title, []),
        ("type: " ++ dumpStr p.type, []),
        ("status: " ++ dumpStr p.status, []),
        ("spaceKey: " ++ dumpStr (pageSpaceKey p), []),
        ("spaceName: " ++ dumpStr (pageSpaceName p), []),
        ("version: " ++ intToStr (pageVersionNum p), [])]) from by
    rw [groupLines_top]
    · rfl
    · intro l hl
      simp only [List.mem_cons, List.not_mem_nil, or_false] at hl
      rcases hl with rfl | rfl | rfl | rfl | rfl | rfl | rfl | rfl
      exacts [hi1, hi2, hi3, hi4, hi5, hi6, hi7, hi8]]
  show parseTopGroups [("entityType: page", []),
      ("id: " ++ dumpStr p.id, []),
      ("title: " ++ dumpStr p.title, []),
      ("type: " ++ dumpStr p.type, []),
      ("status: " ++ dumpStr p.status, []),
      ("spaceKey: " ++ dumpStr (pageSpaceKey p), []),
      ("spaceName: " ++ dumpStr (pageSpaceName p), []),
      ("version: " ++ intToStr (pageVersionNum p), [])] = _
  unfold parseTopGroups
  rw [parseMapGroups_scalar_cons _ _ _ _ hs1 hvb1,
      parseMapGroups_scalar_cons _ _ _ _ hs2 hvb2,
      parseMapGroups_scalar_cons _ _ _ _ hs3 hvb3,
      parseMapGroups_scalar_cons _ _ _ _ hs4 hvb4,
      parseMapGroups_scalar_cons _ _ _ _ hs5 hvb5,
      parseMapGroups_scalar_cons _ _ _ _ hs6 hvb6,
      parseMapGroups_scalar_cons _ _ _ _ hs7 hvb7,
      parseMapGroups_scalar_cons _ _ _ _ hs8 hvb8]
  have hpg : parseScalar ("page") = .str "page" := rfl
  simp [List.lookup, parseScalar_dumpStr, hpg, parseMapGroups]

/-! ## Trim idempotence -/

theorem dropWhile_head_false (p : Char → Bool) (l : List Char) :
    ∀ c, (l.dropWhile p).head? = some c → p c = false := by
  induction l with
  | nil =>
    intro c hc
    simp at hc
  | cons a t ih =>
    intro c hc
    rw [List.dropWhile_cons] at hc
    by_cases hp : p a
    · rw [if_pos hp] at hc
      exact ih c hc
    · rw [if_neg hp] at hc
      simp only [List.head?_cons, Option.some.injEq] at hc
      rw [← hc]
      simpa using hp

theorem trimChars_last_not_ws (cs : List Char) :
    ∀ c, (trimChars cs).getLast? = some c → isJsWs c = false := by
  intro c hc
  unfold trimChars at hc
  rw [List.getLast?_reverse] at hc
  exact dropWhile_head_false isJsWs _ c hc

theorem trimChars_head_not_ws (cs : List Char) :
    ∀ c, (trimChars cs).head? = some c → isJsWs c = false := by
  intro c hc
  unfold trimChars at hc
  rw [List.head?_reverse] at hc
  obtain ⟨pre, hpre⟩ := List.dropWhile_suffix (l := (cs.dropWhile isJsWs).reverse) isJsWs
  have hlast : ((cs.dropWhile isJsWs).reverse).getLast? = some c := by
    rw [← hpre, List.getLast?_append, hc]
    rfl
  rw [List.getLast?_reverse] at hlast
  exact dropWhile_head_false isJsWs cs c hlast

theorem trimChars_idem (cs : List Char) : trimChars (trimChars cs) = trimChars cs :=
  trimChars_eq_self _ (trimChars_head_not_ws cs) (trimChars_last_not_ws cs)

theorem jsTrim_idem (s : String) : jsTrim (jsTrim s) = jsTrim s := by
  unfold jsTrim
  rw [show (String.mk (trimChars s.data)).data = trimChars s.data from rfl, trimChars_idem]

theorem partsContent_trimmed (parts : List (List String)) :
    jsTrim (partsContent parts) = partsContent parts := by
  unfold partsContent
  exact jsTrim_idem _

/-! ## The structure of the serialized page document -/

theorem strLines_ne_nil (s : String) : strLines s ≠ [] := by
  unfold strLines
  intro h
  have h0 := List.map_eq_nil_iff.1 h
  exact List.splitOnP_ne_nil _ s.data h0

theorem pageFm_nl_free (p : ConfluencePage)
    (h1 : simpleStr p.id = true) (h2 : simpleStr p.title = true)
    (h3 : simpleStr p.type = true) (h4 : simpleStr p.status = true)
    (h5 : simpleStr (pageSpaceKey p) = true) (h6 : simpleStr (pageSpaceName p) = true) :
    ∀ l ∈ pageFrontmatterLines p, nlChar ∉ l.data := by
  intro l hl
  unfold pageFrontmatterLines at hl
  simp only [List.mem_cons, List.not_mem_nil, or_false] at hl
  rcases hl with rfl | rfl | rfl | rfl | rfl | rfl | rfl | rfl
  · decide
  · exact nl_free_append _ _ (by decide) (dumpStr_nl_free _ h1)
  · exact nl_free_append _ _ (by decide) (dumpStr_nl_free _ h2)
  · exact nl_free_append _ _ (by decide) (dumpStr_nl_free _ h3)
  · exact nl_free_append _ _ (by decide) (dumpStr_nl_free _ h4)
  · exact nl_free_append _ _ (by decide) (dumpStr_nl_free _ h5)
  · exact nl_free_append _ _ (by decide) (dumpStr_nl_free _ h6)
  · exact nl_free_append _ _ (by decide) (intToStr_nl_free _)

theorem pageFm_ne_marker (p : ConfluencePage) :
    ∀ l ∈ pageFrontmatterLines p, l ≠ "---" := by
  intro l hl
  unfold pageFrontmatterLines at hl
  simp only [List.mem_cons, List.not_mem_nil, or_false] at hl
  rcases hl with rfl | rfl | rfl | rfl | rfl | rfl | rfl | rfl
  · decide
  · exact ne_marker_of_head _ _ 'i' _ rfl (by decide)
  · exact ne_marker_of_head _ _ 't' _ rfl (by decide)
  · exact ne_marker_of_head _ _ 't' _ rfl (by decide)
  · exact ne_marker_of_head _ _ 's' _ rfl (by decide)
  · exact ne_marker_of_head _ _ 's' _ rfl (by decide)
  · exact ne_marker_of_head _ _ 's' _ rfl (by decide)
  · exact ne_marker_of_head _ _ 'v' _ rfl (by decide)

theorem pageToYamlLines_splitOn (p : ConfluencePage) :
    (pageToYamlLines p).splitOn ("---") =
      [] :: pageFrontmatterLines p ::
        (("" :: strLines (pageContentOf p)).splitOn ("---")) := by
  unfold pageToYamlLines
  have h0 : ("---" :: pageFrontmatterLines p) ++ ("---" :: "" :: strLines (pageContentOf p))
      = ([] : List String) ++ "---" ::
          (pageFrontmatterLines p ++ "---" :: ("" :: strLines (pageContentOf p))) := by
    simp
  rw [h0, splitOn_marker_append [] _ (by simp),
      splitOn_marker_append _ _ (pageFm_ne_marker p)]

theorem pageToYaml_parts_len (p : ConfluencePage) :
    ((pageToYamlLines p).splitOn ("---")).length ≥ 3 := by
  rw [pageToYamlLines_splitOn]
  have hne : (("" :: strLines (pageContentOf p)).splitOn ("---")) ≠ [] := by
    show (("" :: strLines (pageContentOf p)).splitOnP (· == "---")) ≠ []
    exact List.splitOnP_ne_nil _ _
  rcases hg : ("" :: strLines (pageContentOf p)).splitOn ("---") with _ | ⟨g, gs⟩
  · exact absurd hg hne
  · simp only [List.length_cons]
    omega

theorem partsContent_cons_cons (a b : List String) (xs : List String) :
    partsContent (a :: b :: xs.splitOn ("---")) = jsTrim (joinLines xs) := by
  unfold partsContent
  have hdrop : (a :: b :: xs.splitOn ("---")).drop 2 = xs.splitOn ("---") := rfl
  rw [hdrop, List.intercalate_splitOn]

theorem joinLines_blank_cons (ls : List String) (hne : ls ≠ []) :
    joinLines ("" :: ls) = String.mk (nlChar :: (joinLines ls).data) := by
  unfold joinLines
  rcases ls with _ | ⟨a, t⟩
  · exact absurd rfl hne
  · apply congrArg String.mk
    show List.intercalate [nlChar] ([] :: a.data :: t.map String.data)
        = nlChar :: List.intercalate [nlChar] (a.data :: t.map String.data)
    simp [List.intercalate, List.intersperse]

theorem jsTrim_nl_cons (cs : List Char) :
    jsTrim (String.mk (nlChar :: cs)) = jsTrim (String.mk cs) := by
  unfold jsTrim trimChars
  have hd1 : (String.mk (nlChar :: cs)).data = nlChar :: cs := rfl
  have hd2 : (String.mk cs).data = cs := rfl
  rw [hd1, hd2, List.dropWhile_cons_of_pos (by decide)]

theorem strLines_pageToYaml (p : ConfluencePage)
    (h1 : simpleStr p.id = true) (h2 : simpleStr p.title = true)
    (h3 : simpleStr p.type = true) (h4 : simpleStr p.status = true)
    (h5 : simpleStr (pageSpaceKey p) = true) (h6 : simpleStr (pageSpaceName p) = true) :
    strLines (pageToYaml p) = pageToYamlLines p := by
  unfold pageToYaml
  apply strLines_joinLines
  · unfold pageToYamlLines
    exact List.cons_ne_nil _ _
  · intro l hl
    unfold pageToYamlLines at hl
    simp only [List.cons_append, List.mem_cons, List.mem_append] at hl
    rcases hl with rfl | hl2
    · decide
    rcases hl2 with hfm | hrest
    · exact pageFm_nl_free p h1 h2 h3 h4 h5 h6 l hfm
    rcases hrest with rfl | rfl | hcl
    · decide
    · decide
    · exact strLines_nl_free _ l hcl

theorem pageToYaml_parts (p : ConfluencePage)
    (h1 : simpleStr p.id = true) (h2 : simpleStr p.title = true)
    (h3 : simpleStr p.type = true) (h4 : simpleStr p.status = true)
    (h5 : simpleStr (pageSpaceKey p) = true) (h6 : simpleStr (pageSpaceName p) = true) :
    ((strLines (pageToYaml p)).splitOn ("---")).length ≥ 3 ∧
    loadYamlLines (((strLines (pageToYaml p)).splitOn ("---")).getD 1 [])
      = .mapDoc (pageFmMap p) ∧
    partsContent ((strLines (pageToYaml p)).splitOn ("---")) = jsTrim (pageContentOf p) := by
  have hsl := strLines_pageToYaml p h1 h2 h3 h4 h5 h6
  have hsp : (strLines (pageToYaml p)).splitOn ("---") =
      [] :: pageFrontmatterLines p ::
        (("" :: strLines (pageContentOf p)).splitOn ("---")) := by
    rw [hsl, pageToYamlLines_splitOn]
  refine ⟨?_, ?_, ?_⟩
  · rw [hsl]
    exact pageToYaml_parts_len p
  · have hget : ((strLines (pageToYaml p)).splitOn ("---")).getD 1 []
        = pageFrontmatterLines p := by
      rw [hsp]
      rfl
    rw [hget]
    exact loadYaml_pageFm p
  · rw [hsp, partsContent_cons_cons,
        joinLines_blank_cons _ (strLines_ne_nil _), jsTrim_nl_cons, mk_data_eq,
        joinLines_strLines]

theorem yamlToPage_pageToYaml (p : ConfluencePage)
    (h1 : simpleStr p.id = true) (h2 : simpleStr p.title = true)
    (h3 : simpleStr p.type = true) (h4 : simpleStr p.status = true)
    (h5 : simpleStr (pageSpaceKey p) = true) (h6 : simpleStr (pageSpaceName p) = true) :
    yamlToPage (pageToYaml p) =
      .ok (buildPartialPage (docGet (pageFmMap p)) (jsTrim (pageContentOf p))) := by
  obtain ⟨hlen, hload, hpc⟩ := pageToYaml_parts p h1 h2 h3 h4 h5 h6
  rw [yamlToPage_of_mapDoc (pageToYaml p) (pageFmMap p) hlen hload, hpc]

theorem extractPageContent_pageToYaml (p : ConfluencePage)
    (h1 : simpleStr p.id = true) (h2 : simpleStr p.title = true)
    (h3 : simpleStr p.type = true) (h4 : simpleStr p.status = true)
    (h5 : simpleStr (pageSpaceKey p) = true) (h6 : simpleStr (pageSpaceName p) = true) :
    extractPageContent (pageToYaml p) =
      .ok (buildExtractedPage (docGet (pageFmMap p)) (jsTrim (pageContentOf p))) := by
  obtain ⟨hlen, hload, hpc⟩ := pageToYaml_parts p h1 h2 h3 h4 h5 h6
  rw [extractPageContent_of_mapDoc (pageToYaml p) (pageFmMap p) hlen hload, hpc]

theorem jsOrV_some_truthy (v d : JsVal) (h : v.truthy = true) : jsOrV (some v) d = v := by
  show (if v.truthy = true then v else d) = v
  rw [if_pos h]

theorem str_truthy (s : String) (h : s ≠ "") : (JsVal.sc (.str s)).truthy = true := by
  show Scalar.truthy (.str s) = true
  unfold Scalar.truthy
  simp [h]

/-! ## C1: serialize/deserialize round trip -/

/-- C1 counterexample: the round trip does not preserve the body exactly.
Deserializing the serialization of a page whose body is `" hello"` yields the
trimmed body `"hello"`: the leading space is lost (`parts.slice(2).join('---').trim()`
trims the recovered body). -/
theorem page_roundtrip_counterexample :
    yamlToPage (pageToYaml samplePagePadded) =
      .ok { id := some (.sc (.str "1")), type := .sc (.str "page"),
            status := .sc (.str "current"), title := .sc (.str "T"),
            space := none, version := some (.sc (.num 3)), body := "hello" } ∧
    pageContentOf samplePagePadded = " hello" ∧
    (" hello" : String) ≠ "hello" := by
  refine ⟨by decide, by decide, by decide⟩

/-- C1 amended: for every page whose string fields are printable and
apostrophe-free and whose title is non-empty, deserializing the serialized
text yields a partial entity whose identifier and title equal the original
ones exactly, and whose body is the trim of the original body — equal to the
original body exactly when that body carries no leading or trailing
whitespace. -/
theorem page_roundtrip_amended (p : ConfluencePage)
    (h1 : simpleStr p.id = true) (h2 : simpleStr p.title = true)
    (h3 : simpleStr p.type = true) (h4 : simpleStr p.status = true)
    (h5 : simpleStr (pageSpaceKey p) = true) (h6 : simpleStr (pageSpaceName p) = true)
    (ht : p.title ≠ "") :
    ∃ pd : PartialPage, yamlToPage (pageToYaml p) = .ok pd ∧
      pd.id = some (.sc (.str p.id)) ∧
      pd.title = .sc (.str p.title) ∧
      pd.body = jsTrim (pageContentOf p) ∧
      (jsTrim (pageContentOf p) = pageContentOf p → pd.body = pageContentOf p) := by
  refine ⟨_, yamlToPage_pageToYaml p h1 h2 h3 h4 h5 h6, ?_, ?_, rfl, ?_⟩
  · show docGet (pageFmMap p) "id" = some (.sc (.str p.id))
    unfold pageFmMap docGet
    rw [lookup_cons_of_ne _ _ _ _ (by decide), lookup_cons_self]
  · show jsOrV (docGet (pageFmMap p) "title") (.sc (.str "Untitled")) = .sc (.str p.title)
    unfold pageFmMap docGet
    rw [lookup_cons_of_ne _ _ _ _ (by decide), lookup_cons_of_ne _ _ _ _ (by decide),
        lookup_cons_self]
    exact jsOrV_some_truthy _ _ (str_truthy _ ht)
  · intro hw
    exact hw

theorem page_roundtrip_amended_witness :
    ∃ pd : PartialPage,
      yamlToPage (pageToYaml samplePageTrimmed) = .ok pd ∧
      pd.id = some (.sc (.str "1")) ∧
      pd.title = .sc (.str "T") ∧
      pd.body = jsTrim (pageContentOf samplePageTrimmed) ∧
      (jsTrim (pageContentOf samplePageTrimmed) = pageContentOf samplePageTrimmed →
        pd.body = pageContentOf samplePageTrimmed) :=
  page_roundtrip_amended samplePageTrimmed
    (by decide) (by decide) (by decide) (by decide) (by decide) (by decide) (by decide)

/-! ## C10: the deserialized body is trimmed -/

/-- C10: whenever the input has at least two marker lines, any successfully
deserialized body (`yamlToPage`) or content (`extractPageContent`) is a fixed
point of trimming — it has no leading or trailing whitespace; and on the
round trip the recovered body is exactly the trim of the original body, so
the blank line inserted by serialization and any leading or trailing
whitespace of the original body are removed. -/
theorem deserialized_body_trimmed :
    (∀ text pd, 2 ≤ (strLines text).count ("---") → yamlToPage text = .ok pd →
      jsTrim pd.body = pd.body) ∧
    (∀ text ex, 2 ≤ (strLines text).count ("---") → extractPageContent text = .ok ex →
      jsTrim ex.content = ex.content) ∧
    (∀ p : ConfluencePage, simpleStr p.id = true → simpleStr p.title = true →
      simpleStr p.type = true → simpleStr p.status = true →
      simpleStr (pageSpaceKey p) = true → simpleStr (pageSpaceName p) = true →
      ∃ pd, yamlToPage (pageToYaml p) = .ok pd ∧ pd.body = jsTrim (pageContentOf p)) := by
  refine ⟨?_, ?_, ?_⟩
  · intro text pd hc hok
    have hlen : ((strLines text).splitOn ("---")).length ≥ 3 := by
      rw [length_splitOn_count]
      omega
    unfold yamlToPage at hok
    rw [if_pos hlen] at hok
    rcases hl : loadYamlLines (((strLines text).splitOn ("---")).getD 1 []) with _ | sc | m | e
    · rw [hl] at hok
      simp at hok
    · rcases sc with s | n | b | _
      · rw [hl] at hok
        have hpd := Except.ok.inj hok
        rw [← hpd]
        exact partsContent_trimmed _
      · rw [hl] at hok
        have hpd := Except.ok.inj hok
        rw [← hpd]
        exact partsContent_trimmed _
      · rw [hl] at hok
        have hpd := Except.ok.inj hok
        rw [← hpd]
        exact partsContent_trimmed _
      · rw [hl] at hok
        simp at hok
    · rw [hl] at hok
      have hpd := Except.ok.inj hok
      rw [← hpd]
      exact partsContent_trimmed _
    · rw [hl] at hok
      simp at hok
  · intro text ex hc hok
    have hlen : ((strLines text).splitOn ("---")).length ≥ 3 := by
      rw [length_splitOn_count]
      omega
    unfold extractPageContent at hok
    rw [if_pos hlen] at hok
    rcases hl : loadYamlLines (((strLines text).splitOn ("---")).getD 1 []) with _ | sc | m | e
    · rw [hl] at hok
      simp at hok
    · rcases sc with s | n | b | _
      · rw [hl] at hok
        have hex := Except.ok.inj hok
        rw [← hex]
        exact partsContent_trimmed _
      · rw [hl] at hok
        have hex := Except.ok.inj hok
        rw [← hex]
        exact partsContent_trimmed _
      · rw [hl] at hok
        have hex := Except.ok.inj hok
        rw [← hex]
        exact partsContent_trimmed _
      · rw [hl] at hok
        simp at hok
    · rw [hl] at hok
      have hex := Except.ok.inj hok
      rw [← hex]
      exact partsContent_trimmed _
    · rw [hl] at hok
      simp at hok
  · intro p h1 h2 h3 h4 h5 h6
    exact ⟨_, yamlToPage_pageToYaml p h1 h2 h3 h4 h5 h6, rfl⟩

theorem deserialized_body_trimmed_witness :
    2 ≤ (strLines ("---\nid: p1\n---\n\n body")).count ("---") ∧
    yamlToPage ("---\nid: p1\n---\n\n body") =
      .ok { id := some (.sc (.str "p1")), type := .sc (.str "page"),
            status := .sc (.str "current"), title := .sc (.str "Untitled"),
            space := none, version := none, body := "body" } ∧
    jsTrim ("body") = "body" :=
  ⟨by decide, by decide,
   deserialized_body_trimmed.1 ("---\nid: p1\n---\n\n body")
     { id := some (.sc (.str "p1")), type := .sc (.str "page"),
       status := .sc (.str "current"), title := .sc (.str "Untitled"),
       space := none, version := none, body := "body" }
     (by decide) (by decide)⟩

end AtlassianTools
